import Mathlib

/-!
# mongen-v2: code generator and query builder

A shallow embedding of `gen.go` (name casing, struct introspection, emission of
the Model and DAO artifacts) and of `common/entity.go`, `common/q.go` (field
descriptors, query conditions, the generic query builder), with the properties
proved about them.

Go strings are embedded as Lean `String`s (sequences of code points); the
strings the generator handles are Go identifiers, struct tags and type names.
-/

namespace Mongen

/-! ## Standard-library functions used by the sources -/

/-- The three functions of Go's `unicode` package that `gen.go` calls. They are
tables of the Unicode standard and are taken as a parameter. -/
structure UnicodeTables where
  IsLetter : Char → Bool
  ToUpper : Char → Char
  ToLower : Char → Char

/-- The restriction of the Unicode tables to ASCII: letters are `A-Z` and `a-z`,
and every code point above U+007F counts as a non-letter mapped to itself. It
agrees with Go's `unicode` package on every ASCII input and is used to evaluate
the generator on ASCII identifiers. -/
def asciiTables : UnicodeTables where
  IsLetter := fun c => (65 ≤ c.toNat && c.toNat ≤ 90) || (97 ≤ c.toNat && c.toNat ≤ 122)
  ToUpper := fun c => if 97 ≤ c.toNat && c.toNat ≤ 122 then Char.ofNat (c.toNat - 32) else c
  ToLower := fun c => if 65 ≤ c.toNat && c.toNat ≤ 90 then Char.ofNat (c.toNat + 32) else c

/-- Worker of `strings_Split`: `cur` is the segment being read. -/
def splitAux (sep : Char) : List Char → List Char → List String
  | [], cur => [String.mk cur]
  | c :: cs, cur =>
    if c = sep then String.mk cur :: splitAux sep cs [] else splitAux sep cs (cur ++ [c])

/-- Go `strings.Split(s, sep)` for a one-character separator: the substrings
between the occurrences of `sep`; one more element than there are separators. -/
def strings_Split (s : String) (sep : Char) : List String :=
  splitAux sep s.data []

/-- Go `strings.HasSuffix(s, suffix)`. -/
def strings_HasSuffix (s suffix : String) : Bool :=
  suffix.data.isSuffixOf s.data

/-- Go `strings.Join(elems, sep)`. -/
def strings_Join : List String → String → String
  | [], _ => ""
  | [a], _ => a
  | a :: b :: rest, sep => a ++ sep ++ strings_Join (b :: rest) sep

/-- Go `strings.ToLower(s)`: every code point mapped through `unicode.ToLower`. -/
def strings_ToLower (U : UnicodeTables) (s : String) : String :=
  String.mk (s.data.map U.ToLower)

/-! ## gen.go: name casing -/

/-- The loop of `toTitleCase`: `str` is what remains to be decoded, `wordBuf` the
runes written so far, `upNextWord` the flag. -/
def toTitleCaseLoop (U : UnicodeTables) : List Char → List Char → Bool → List Char
  | [], wordBuf, _ => wordBuf
  | r :: str, wordBuf, upNextWord =>
    if U.IsLetter r then
      if upNextWord then toTitleCaseLoop U str (wordBuf ++ [U.ToUpper r]) false
      else toTitleCaseLoop U str (wordBuf ++ [U.ToLower r]) upNextWord
    else toTitleCaseLoop U str (wordBuf ++ [r]) true

/-- `toTitleCase` of gen.go. -/
def toTitleCase (U : UnicodeTables) (str : String) : String :=
  String.mk (toTitleCaseLoop U str.data [] true)

/-- The loop of `toLowerCamelCase`: `i` is the index of the head of `words`. -/
def toLowerCamelCaseLoop (U : UnicodeTables) : List String → Nat → String → String
  | [], _, result => result
  | word :: words, i, result =>
    if i = 0 then toLowerCamelCaseLoop U words (i + 1) (strings_ToLower U word)
    else toLowerCamelCaseLoop U words (i + 1) (result ++ toTitleCase U word)

/-- `toLowerCamelCase` of gen.go. -/
def toLowerCamelCase (U : UnicodeTables) (s : String) : String :=
  toLowerCamelCaseLoop U (strings_Split s '_') 0 ""

/-- `toUpperCamelCase` of gen.go: the slice `upperCamelCase` starts as empty
strings, and the entry of a non-empty word is set to its title case. -/
def toUpperCamelCase (U : UnicodeTables) (str : String) : String :=
  let words := strings_Split str '_'
  let upperCamelCase := words.map (fun word => if word = "" then "" else toTitleCase U word)
  strings_Join upperCamelCase ""

/-! ## gen.go: struct introspection -/

/-- Go `reflect.Kind`. -/
inductive Kind where
  | Invalid | Bool | Int | Int8 | Int16 | Int32 | Int64
  | Uint | Uint8 | Uint16 | Uint32 | Uint64 | Uintptr
  | Float32 | Float64 | Complex64 | Complex128
  | Array | Chan | Func | Interface | Map | Pointer | Slice | String | Struct
  | UnsafePointer
  deriving DecidableEq, Repr

/-- Go `reflect.StructTag`, as the key/value pairs of a conventionally formatted
tag string. -/
abbrev StructTag := List (String × String)

/-- Go `StructTag.Get(key)`: the value of the first pair with that key, and the
empty string when there is none. -/
def StructTag.Get (tag : StructTag) (key : String) : String :=
  match tag.find? (fun kv => kv.1 = key) with
  | some kv => kv.2
  | none => ""

/-- Go `reflect.StructField`, over the representation `τ` of types: the members
the generator reads. -/
structure StructFieldOf (τ : Type) where
  Name : String
  Tag : StructTag
  Anonymous : Bool
  Type_ : τ

/-- Go `reflect.Type`, as far as the generator inspects it: `Kind()`, `Name()`,
`String()` and, for a struct type, its fields in declaration order. A Go struct
type cannot contain itself by value, so the types form a well-founded tree. -/
inductive RType where
  | mk (kind : Kind) (name : String) (str : String) (fields : List (StructFieldOf RType))

abbrev StructField := StructFieldOf RType

/-- Go `Type.Kind()`. -/
def RType.Kind : RType → Kind
  | .mk kind _ _ _ => kind

/-- Go `Type.Name()`. -/
def RType.Name : RType → String
  | .mk _ name _ _ => name

/-- Go `Type.String()`. -/
def RType.String : RType → String
  | .mk _ _ str _ => str

/-- The fields `Type.Field(0)`, ..., `Type.Field(NumField()-1)`. -/
def RType.Fields : RType → List StructField
  | .mk _ _ _ fields => fields

/-- The struct `Field` of gen.go. -/
structure Field where
  Name : String
  Bson : String
  Type_ : String
  deriving DecidableEq, Repr

/-- The struct `gen[T]` of gen.go; the sample object `obj` is never read. -/
structure gen where
  basePath : String
  objectName : String
  fields : List Field
  deriving DecidableEq, Repr

/-- Go `error` values made by `fmt.Errorf`: the message. -/
abbrev error := String

mutual
/-- `parseEmbeddedFields` of gen.go. -/
def parseEmbeddedFields (U : UnicodeTables) : RType → Except error (List Field)
  | .mk _ _ _ fs => parseEmbeddedFieldsLoop U fs []
/-- The `for` loop of `parseEmbeddedFields` over the fields still to visit, with
the slice `fields` built so far. -/
def parseEmbeddedFieldsLoop (U : UnicodeTables) :
    List (StructFieldOf RType) → List Field → Except error (List Field)
  | [], fields => .ok fields
  | ⟨fName, fTag, fAnonymous, fType⟩ :: rest, fields =>
    if fAnonymous && fType.Kind == Kind.Struct then
      match parseEmbeddedFields U fType with
      | .error err => .error err
      | .ok embeddedFields => parseEmbeddedFieldsLoop U rest (fields ++ embeddedFields)
    else
      let bson := toLowerCamelCase U fName
      let tmp := StructTag.Get fTag "bson"
      let bson :=
        if tmp ≠ "" && !strings_HasSuffix tmp "," then
          let bsonArr := strings_Split tmp ','
          if bsonArr.length > 0 then bsonArr.headD bson else bson
        else bson
      parseEmbeddedFieldsLoop U rest (fields ++ [{ Name := fName, Type_ := fType.String, Bson := bson }])
end

/-- The `for` loop of `parseStruct`. -/
def parseStructLoop (U : UnicodeTables) :
    List StructField → List Field → Except error (List Field)
  | [], fields => .ok fields
  | field :: rest, fields =>
    if field.Anonymous && field.Type_.Kind == Kind.Struct then
      match parseEmbeddedFields U field.Type_ with
      | .error err => .error err
      | .ok embeddedFields => parseStructLoop U rest (fields ++ embeddedFields)
    else
      let bson := toLowerCamelCase U field.Name
      let tmp := field.Tag.Get "bson"
      let bson :=
        if tmp ≠ "" && !strings_HasSuffix tmp "," then
          let bsonArr := strings_Split tmp ','
          if bsonArr.length > 0 then bsonArr.headD bson else bson
        else bson
      parseStructLoop U rest (fields ++ [{ Name := field.Name, Bson := bson, Type_ := field.Type_.String }])

/-- `parseStruct` of gen.go, on the `reflect.Type` of its argument: the returned
error (`none` for `nil`) and the generator afterwards. -/
def gen.parseStruct (U : UnicodeTables) (s : gen) (typ : RType) : Option error × gen :=
  if typ.Kind ≠ Kind.Struct then
    (some "input is not a struct pointer", s)
  else
    match parseStructLoop U typ.Fields [] with
    | .error err => (some err, s)
    | .ok fields => (none, { s with fields := fields, objectName := typ.Name })

/-! ## Specification of the introspector -/

/-- The serialization key of a leaf field with declared name `n` and bson tag `t`,
in the words of the specification: the part of `t` before the first separator
when `t` is non-empty and does not end with the separator, and the lower camel
case of `n` otherwise. -/
def serializationKey (U : UnicodeTables) (n t : String) : String :=
  if t ≠ "" ∧ t.data.getLast? ≠ some ',' then String.mk (t.data.takeWhile (fun c => c ≠ ','))
  else toLowerCamelCase U n

/-- An anonymous embedded field of struct kind: the fields the introspector
recurses into. Every other field is a leaf. -/
def isEmbeddedStruct (f : StructField) : Bool :=
  f.Anonymous && f.Type_.Kind == Kind.Struct

/-- The metadata entry of a leaf field. -/
def leafEntry (U : UnicodeTables) (f : StructField) : Field :=
  { Name := f.Name, Bson := serializationKey U f.Name (f.Tag.Get "bson"), Type_ := f.Type_.String }

mutual
/-- The depth-first flattening of a type in declaration order. -/
def flattenType (U : UnicodeTables) : RType → List Field
  | .mk _ _ _ fs => flattenFields U fs
/-- The depth-first flattening of a field list: an embedded struct is replaced in
place by its own flattening, every other field gives one entry. -/
def flattenFields (U : UnicodeTables) : List (StructFieldOf RType) → List Field
  | [] => []
  | ⟨n, tag, anon, ty⟩ :: rest =>
    (if anon && ty.Kind == Kind.Struct then flattenType U ty
     else [leafEntry U ⟨n, tag, anon, ty⟩]) ++ flattenFields U rest
end

mutual
/-- The number of leaf fields of a type across all embedding levels. -/
def leafCount : RType → Nat
  | .mk _ _ _ fs => leafCountFields fs
/-- The number of leaf fields of a field list across all embedding levels. -/
def leafCountFields : List (StructFieldOf RType) → Nat
  | [] => 0
  | ⟨_, _, anon, ty⟩ :: rest =>
    (if anon && ty.Kind == Kind.Struct then leafCount ty else 1) + leafCountFields rest
end

/-! ## gen.go: emission -/

/-- The text `genDao` has rendered in `code` when it turns to the file system. -/
def gen.genDaoCode (U : UnicodeTables) (s : gen) : String :=
  let code :=
    "\npackage dao\n\nimport (\n\t\"gen/common\"\n\t\"model\"\n)\n\ntype "
      ++ toLowerCamelCase U s.objectName ++ " struct \x7b\n\tcommon.Q[model."
      ++ toUpperCamelCase U s.objectName ++ "]\n\x7d\nvar "
      ++ toUpperCamelCase U s.objectName ++ " = &" ++ toLowerCamelCase U s.objectName
      ++ "\x7b\x7d\n"
  s.fields.foldl (fun code field =>
    let fieldName := field.Name
    let fieldType := field.Type_
    code ++ ("\nfunc (q *" ++ toLowerCamelCase U s.objectName ++ ") " ++ fieldName
      ++ "() common.Field[" ++ fieldType ++ "] \x7b\n\treturn common.Field[" ++ fieldType
      ++ "]\x7bName: \"" ++ fieldName ++ "\",Bson: \"" ++ field.Bson ++ "\"\x7d\n\x7d")) code

/-- The slice `fieldsArr` of `genModel`: one line per field. -/
def gen.genModelFieldsArr (U : UnicodeTables) (s : gen) : List String :=
  s.fields.foldl (fun fieldsArr field =>
    let fieldName := field.Name
    let fieldType := field.Type_
    let tag := toLowerCamelCase U fieldName
    let f := fieldName ++ " " ++ fieldType ++ " `bson:\"" ++ tag ++ "\"`"
    fieldsArr ++ [f]) []

/-- The text `genModel` has rendered in `code` when it turns to the file system. -/
def gen.genModelCode (U : UnicodeTables) (s : gen) : String :=
  let filedStr := strings_Join (s.genModelFieldsArr U) "\n"
  "\npackage model\n\ntype " ++ s.objectName ++ " struct \x7b\n" ++ filedStr ++ "\n\x7d\n"

/-! ## gen.go: writing the artifacts -/

/-- A call the generator makes on the operating system; `F` is the type of open
files (`*os.File`). -/
inductive OsCall (F : Type) where
  | MkdirAll (path : String) (perm : Nat)
  | Create (name : String)
  | WriteString (f : F) (s : String)
  | Close (f : F)
  deriving DecidableEq, Repr

/-- The operating system, an external collaborator: `σ` is its state, `E` the
type of its errors; `nil` is `none`. `Join` is Go `filepath.Join` of two
elements. -/
structure Os (σ F E : Type) where
  Join : String → String → String
  MkdirAll : σ → String → Nat → σ × Option E
  Create : σ → String → σ × F × Option E
  WriteString : σ → F → String → σ × Option E
  Close : σ → F → σ

/-- The outcome of an emission step: the returned error, the generator and the
operating system afterwards, and the calls made, in order. -/
structure Emitted (σ F E : Type) where
  err : Option E
  s : gen
  os : σ
  calls : List (OsCall F)

/-- Go `error` values `Gen` returns: one made by `fmt.Errorf`, or one of the
operating system. -/
inductive GoError (E : Type) where
  | Errorf (msg : String)
  | os (e : E)
  deriving DecidableEq, Repr

/-- `SetBasePath` of gen.go. -/
def gen.SetBasePath (s : gen) (basePath : String) : gen :=
  { s with basePath := basePath }

section Emission

variable {σ F E : Type}

/-- `genDao` of gen.go; the deferred `f.Close()` runs after the write. -/
def gen.genDao (os : Os σ F E) (U : UnicodeTables) (s : gen) (w : σ) : Emitted σ F E :=
  let s := if s.basePath = "" then { s with basePath := "dist" } else s
  let code := s.genDaoCode U
  let daoPath := os.Join s.basePath "dao"
  match os.MkdirAll w daoPath 0o755 with
  | (w, some err) => ⟨some err, s, w, [OsCall.MkdirAll daoPath 0o755]⟩
  | (w, none) =>
    let filename := os.Join daoPath (toLowerCamelCase U s.objectName ++ ".go")
    match os.Create w filename with
    | (w, _, some err) =>
      ⟨some err, s, w, [OsCall.MkdirAll daoPath 0o755, OsCall.Create filename]⟩
    | (w, f, none) =>
      match os.WriteString w f code with
      | (w, err) =>
        ⟨err, s, os.Close w f,
          [OsCall.MkdirAll daoPath 0o755, OsCall.Create filename, OsCall.WriteString f code,
            OsCall.Close f]⟩

/-- `genModel` of gen.go; the deferred `f.Close()` runs after the write. -/
def gen.genModel (os : Os σ F E) (U : UnicodeTables) (s : gen) (w : σ) : Emitted σ F E :=
  let s := if s.basePath = "" then { s with basePath := "dist" } else s
  let code := s.genModelCode U
  let modelPath := os.Join s.basePath "model"
  match os.MkdirAll w modelPath 0o755 with
  | (w, some err) => ⟨some err, s, w, [OsCall.MkdirAll modelPath 0o755]⟩
  | (w, none) =>
    let filename := os.Join modelPath (toLowerCamelCase U s.objectName ++ ".go")
    match os.Create w filename with
    | (w, _, some err) =>
      ⟨some err, s, w, [OsCall.MkdirAll modelPath 0o755, OsCall.Create filename]⟩
    | (w, f, none) =>
      match os.WriteString w f code with
      | (w, err) =>
        ⟨err, s, os.Close w f,
          [OsCall.MkdirAll modelPath 0o755, OsCall.Create filename, OsCall.WriteString f code,
            OsCall.Close f]⟩

/-- `Gen` of gen.go, on the `reflect.Type` of `in`: the returned error, the
operating system afterwards and the calls made on it, in order. The lines
printed with `fmt.Println` are not part of the embedding. -/
def Gen (os : Os σ F E) (U : UnicodeTables) (in_ : RType) (path : String) (w : σ) :
    Option (GoError E) × σ × List (OsCall F) :=
  let g : gen := { basePath := "", objectName := "", fields := [] }
  let g := g.SetBasePath path
  match g.parseStruct U in_ with
  | (some err, _) => (some (GoError.Errorf err), w, [])
  | (none, g) =>
    let dao := g.genDao os U w
    match dao.err with
    | some err => (some (GoError.os err), dao.os, dao.calls)
    | none =>
      let model := dao.s.genModel os U dao.os
      match model.err with
      | some err => (some (GoError.os err), model.os, dao.calls ++ model.calls)
      | none => (none, model.os, dao.calls ++ model.calls)

/-- The outcome of the introspection step of `Gen`. -/
def Gen.parsed (U : UnicodeTables) (in_ : RType) (path : String) : Option error × gen :=
  (gen.SetBasePath { basePath := "", objectName := "", fields := [] } path).parseStruct U in_

/-- The outcome of the DAO emission step of `Gen`, run after the introspection. -/
def Gen.dao (os : Os σ F E) (U : UnicodeTables) (in_ : RType) (path : String) (w : σ) :
    Emitted σ F E :=
  (Gen.parsed U in_ path).2.genDao os U w

/-- The outcome of the Model emission step of `Gen`, run after the DAO emission. -/
def Gen.model (os : Os σ F E) (U : UnicodeTables) (in_ : RType) (path : String) (w : σ) :
    Emitted σ F E :=
  (Gen.dao os U in_ path w).s.genModel os U (Gen.dao os U in_ path w).os

/-- The directory `Gen` makes for the DAO artifact under the output root `path`. -/
def Gen.daoDir (os : Os σ F E) (path : String) : String :=
  os.Join (if path = "" then "dist" else path) "dao"

/-- The file `Gen` creates for the DAO artifact. -/
def Gen.daoFile (os : Os σ F E) (U : UnicodeTables) (in_ : RType) (path : String) : String :=
  os.Join (Gen.daoDir os path) (toLowerCamelCase U (Gen.parsed U in_ path).2.objectName ++ ".go")

/-- The directory `Gen` makes for the Model artifact under the output root
`path`. -/
def Gen.modelDir (os : Os σ F E) (path : String) : String :=
  os.Join (if path = "" then "dist" else path) "model"

/-- The file `Gen` creates for the Model artifact. -/
def Gen.modelFile (os : Os σ F E) (U : UnicodeTables) (in_ : RType) (path : String) : String :=
  os.Join (Gen.modelDir os path) (toLowerCamelCase U (Gen.parsed U in_ path).2.objectName ++ ".go")

/-- The answer of the operating system when `Gen` makes the DAO directory. -/
def Gen.daoMkdir (os : Os σ F E) (path : String) (w : σ) : σ × Option E :=
  os.MkdirAll w (Gen.daoDir os path) 0o755

/-- The answer of the operating system when `Gen` then creates the DAO file. -/
def Gen.daoCreate (os : Os σ F E) (U : UnicodeTables) (in_ : RType) (path : String) (w : σ) :
    σ × F × Option E :=
  os.Create (Gen.daoMkdir os path w).1 (Gen.daoFile os U in_ path)

/-- The answer of the operating system when `Gen` then writes the DAO text. -/
def Gen.daoWrite (os : Os σ F E) (U : UnicodeTables) (in_ : RType) (path : String) (w : σ) :
    σ × Option E :=
  os.WriteString (Gen.daoCreate os U in_ path w).1 (Gen.daoCreate os U in_ path w).2.1
    ((Gen.parsed U in_ path).2.genDaoCode U)

/-- The operating system after the DAO file is closed. -/
def Gen.daoClosed (os : Os σ F E) (U : UnicodeTables) (in_ : RType) (path : String) (w : σ) :
    σ :=
  os.Close (Gen.daoWrite os U in_ path w).1 (Gen.daoCreate os U in_ path w).2.1

/-- The four calls of a DAO emission that gets to its write. -/
def Gen.daoCalls (os : Os σ F E) (U : UnicodeTables) (in_ : RType) (path : String) (w : σ) :
    List (OsCall F) :=
  [OsCall.MkdirAll (Gen.daoDir os path) 0o755,
   OsCall.Create (Gen.daoFile os U in_ path),
   OsCall.WriteString (Gen.daoCreate os U in_ path w).2.1 ((Gen.parsed U in_ path).2.genDaoCode U),
   OsCall.Close (Gen.daoCreate os U in_ path w).2.1]

/-- The answer of the operating system when `Gen` makes the Model directory,
after the DAO file is closed. -/
def Gen.modelMkdir (os : Os σ F E) (U : UnicodeTables) (in_ : RType) (path : String) (w : σ) :
    σ × Option E :=
  os.MkdirAll (Gen.daoClosed os U in_ path w) (Gen.modelDir os path) 0o755

/-- The answer of the operating system when `Gen` then creates the Model file. -/
def Gen.modelCreate (os : Os σ F E) (U : UnicodeTables) (in_ : RType) (path : String) (w : σ) :
    σ × F × Option E :=
  os.Create (Gen.modelMkdir os U in_ path w).1 (Gen.modelFile os U in_ path)

/-- The answer of the operating system when `Gen` then writes the Model text. -/
def Gen.modelWrite (os : Os σ F E) (U : UnicodeTables) (in_ : RType) (path : String) (w : σ) :
    σ × Option E :=
  os.WriteString (Gen.modelCreate os U in_ path w).1 (Gen.modelCreate os U in_ path w).2.1
    ((Gen.parsed U in_ path).2.genModelCode U)

/-- The operating system after the Model file is closed. -/
def Gen.modelClosed (os : Os σ F E) (U : UnicodeTables) (in_ : RType) (path : String) (w : σ) :
    σ :=
  os.Close (Gen.modelWrite os U in_ path w).1 (Gen.modelCreate os U in_ path w).2.1

/-- The four calls of a Model emission that gets to its write. -/
def Gen.modelCalls (os : Os σ F E) (U : UnicodeTables) (in_ : RType) (path : String) (w : σ) :
    List (OsCall F) :=
  [OsCall.MkdirAll (Gen.modelDir os path) 0o755,
   OsCall.Create (Gen.modelFile os U in_ path),
   OsCall.WriteString (Gen.modelCreate os U in_ path w).2.1
     ((Gen.parsed U in_ path).2.genModelCode U),
   OsCall.Close (Gen.modelCreate os U in_ path w).2.1]

/-- The texts of the `WriteString` calls among `calls`, with their files, in
order. -/
def writes {F : Type} : List (OsCall F) → List (F × String)
  | [] => []
  | OsCall.WriteString f t :: rest => (f, t) :: writes rest
  | _ :: rest => writes rest

end Emission

/-! ## common/entity.go -/

/-- A Go value of logical type `T` as a condition carries it in an `interface{}`:
a single `T`, or a slice `[]T` given by its elements in order. -/
inductive Iface (T : Type) where
  | value (v : T)
  | slice (vs : List T)
  deriving DecidableEq, Repr

/-- The struct `QueryCondition`; `V` is the type of what `Value` holds. -/
structure QueryCondition (V : Type) where
  Field : String
  Op : String
  Value : V
  deriving DecidableEq, Repr

namespace common

/-- The struct `Field[T]` of common/entity.go. -/
structure Field (T : Type) where
  Name : String
  Bson : String
  Type_ : String
  deriving DecidableEq, Repr

/-- `Field[T].Eq`. -/
def Field.Eq {T : Type} (f : Field T) (value : T) : QueryCondition (Iface T) :=
  { Field := f.Bson, Op := "$eq", Value := Iface.value value }

/-- `Field[T].In`; the variadic arguments arrive as the slice `values`. -/
def Field.In {T : Type} (f : Field T) (values : List T) : QueryCondition (Iface T) :=
  { Field := f.Bson, Op := "$in", Value := Iface.slice values }

end common

/-! ## common/q.go -/

/-- A BSON value as the builder makes it: a Go value passed on as it is, or an
ordered document `bson.D` of key/value elements `bson.E`. -/
inductive Bson (V : Type) where
  | val (v : V)
  | D (es : List (String × Bson V))

/-- Go `bson.D`. -/
abbrev BsonD (V : Type) := List (String × Bson V)

/-- A panic of the `reflect` package that the builder can run into. -/
inductive Panic where
  /-- `Value.Interface` on a value obtained from an unexported field. -/
  | unexportedInterface
  /-- `Value.FieldByName` through a nil pointer to an embedded struct. -/
  | nilEmbeddedPointer
  deriving DecidableEq, Repr

/-- A direct field of a struct value as `reflect` presents it: the declared name,
the tag, `IsExported()` and `Anonymous` of `t.Field(i)`, and the value that
`v.Field(i)` holds. -/
structure Member (V : Type) where
  Name : String
  Tag : StructTag
  Exported : Bool
  Anonymous : Bool
  Value : V

/-- A record value: its direct fields in declaration order. -/
abbrev Record (V : Type) := List (Member V)

/-- What Go `Value.FieldByName(name)` gives: the invalid `Value`, the value of a
field together with whether the field is exported (`Interface` works on it), or
the panic on a nil pointer to an embedded struct. -/
inductive Lookup (V : Type) where
  | invalid
  | field (exported : Bool) (value : V)
  | nilEmbedded
  deriving DecidableEq, Repr

/-- Go `Value.FieldByName(name)` on a record. The name of a direct field gives the
first direct field with that name. Otherwise, when the record has embedded
fields, `reflect` searches them breadth first for a promoted field; this search
is the parameter `promoted`. The empty name and a record without embedded fields
give the invalid `Value`. -/
def Record.FieldByName {V : Type} (promoted : Record V → String → Lookup V) (v : Record V)
    (name : String) : Lookup V :=
  if name = "" then Lookup.invalid
  else
    match v.find? (fun m => m.Name = name) with
    | some m => Lookup.field m.Exported m.Value
    | none => if v.any (fun m => m.Anonymous) then promoted v name else Lookup.invalid

/-- Go `options.UpdateOptions`, as far as the builder sets it. -/
structure UpdateOptions where
  Upsert : Option Bool
  deriving DecidableEq, Repr

/-- The struct `Q[T]`: collection handle, context, accumulated conditions. -/
structure Q (Coll Ctx V : Type) where
  collection : Coll
  ctx : Ctx
  filter : List (QueryCondition V)

/-- A call the builder makes on the driver. -/
inductive Call (Coll Ctx V Cur : Type) where
  | FindOne (coll : Coll) (ctx : Ctx) (filter : BsonD V)
  | Find (coll : Coll) (ctx : Ctx) (filter : BsonD V)
  | CursorAll (cursor : Cur) (ctx : Ctx)
  | CursorClose (cursor : Cur) (ctx : Ctx)
  | UpdateOne (coll : Coll) (ctx : Ctx) (filter : BsonD V) (update : BsonD V)
      (opts : List UpdateOptions)

/-- The answers of the MongoDB driver, an external collaborator: `T` is the
decoded record type, `R` the type of update results, `E` of errors. `nil` is
`none`. -/
structure Driver (Coll Ctx V Cur T R E : Type) where
  /-- The content of `result` after `FindOne(ctx, filter).Decode(&result)`, and
  the error. -/
  FindOneDecode : Coll → Ctx → BsonD V → T × Option E
  Find : Coll → Ctx → BsonD V → Cur × Option E
  /-- The content of `results` after `cursor.All(ctx, &results)`, `none` for the
  nil slice, and the error. -/
  CursorAll : Cur → Ctx → Option (List T) × Option E
  UpdateOne : Coll → Ctx → BsonD V → BsonD V → List UpdateOptions → Option R × Option E

section Builder

variable {Coll Ctx V Cur T R E : Type}

/-- `Q.Collection`. -/
def Q.Collection (q : Q Coll Ctx V) (collection : Coll) : Q Coll Ctx V :=
  { q with collection := collection }

/-- `Q.WithContext`. -/
def Q.WithContext (q : Q Coll Ctx V) (ctx : Ctx) : Q Coll Ctx V :=
  { q with ctx := ctx }

/-- `Q.Where`. -/
def Q.Where (q : Q Coll Ctx V) (condition : List (QueryCondition V)) : Q Coll Ctx V :=
  { q with filter := q.filter ++ condition }

/-- The local `filter` of `Q.First` after its loop. -/
def Q.First.filter (q : Q Coll Ctx V) : BsonD V :=
  q.filter.foldl (fun filter c => filter ++ [(c.Field, Bson.D [(c.Op, Bson.val c.Value)])]) []

/-- `Q.First`: the returned record and error, and the calls made. -/
def Q.First (drv : Driver Coll Ctx V Cur T R E) (q : Q Coll Ctx V) :
    (T × Option E) × List (Call Coll Ctx V Cur) :=
  let filter := Q.First.filter q
  (drv.FindOneDecode q.collection q.ctx filter, [Call.FindOne q.collection q.ctx filter])

/-- The local `filter` of `Q.Find` after its loop. -/
def Q.Find.filter (q : Q Coll Ctx V) : BsonD V :=
  q.filter.foldl (fun filter c => filter ++ [(c.Field, Bson.D [(c.Op, Bson.val c.Value)])]) []

/-- `Q.Find`: the returned slice (`none` for `nil`) and error, and the calls made;
the deferred `cursor.Close` is the last call. -/
def Q.Find (drv : Driver Coll Ctx V Cur T R E) (q : Q Coll Ctx V) :
    (Option (List T) × Option E) × List (Call Coll Ctx V Cur) :=
  let filter := Q.Find.filter q
  match drv.Find q.collection q.ctx filter with
  | (_, some err) => ((none, some err), [Call.Find q.collection q.ctx filter])
  | (cursor, none) =>
    match drv.CursorAll cursor q.ctx with
    | (_, some err) =>
      ((none, some err),
        [Call.Find q.collection q.ctx filter, Call.CursorAll cursor q.ctx,
          Call.CursorClose cursor q.ctx])
    | (results, none) =>
      ((results, none),
        [Call.Find q.collection q.ctx filter, Call.CursorAll cursor q.ctx,
          Call.CursorClose cursor q.ctx])

/-- The local `filter` of `Q.UpdateOne` after its loop. -/
def Q.UpdateOne.filter (q : Q Coll Ctx V) : BsonD V :=
  q.filter.foldl (fun filter c => filter ++ [(c.Field, Bson.D [(c.Op, Bson.val c.Value)])]) []

/-- The loop of `Q.UpdateOne` over the fields still to visit, with the `updateDoc`
built so far; `IsZero` is Go `reflect.Value.IsZero`. `fieldValue.Interface()`
panics on an unexported field. -/
def Q.UpdateOne.updateDocLoop (IsZero : V → Bool) :
    List (Member V) → BsonD V → Except Panic (BsonD V)
  | [], updateDoc => .ok updateDoc
  | m :: rest, updateDoc =>
    if !IsZero m.Value then
      let fieldName := m.Tag.Get "bson"
      let fieldName := if fieldName = "" then m.Name else fieldName
      if m.Exported then
        Q.UpdateOne.updateDocLoop IsZero rest (updateDoc ++ [(fieldName, Bson.val m.Value)])
      else .error Panic.unexportedInterface
    else Q.UpdateOne.updateDocLoop IsZero rest updateDoc

/-- The local `updateDoc` of `Q.UpdateOne` after its loop, or the panic that ends
the loop. -/
def Q.UpdateOne.updateDoc (IsZero : V → Bool) (update : Record V) : Except Panic (BsonD V) :=
  Q.UpdateOne.updateDocLoop IsZero update []

/-- `Q.UpdateOne`: the returned result and error, or the panic, and the calls
made. -/
def Q.UpdateOne (drv : Driver Coll Ctx V Cur T R E) (IsZero : V → Bool) (q : Q Coll Ctx V)
    (update : Record V) : Except Panic (Option R × Option E) × List (Call Coll Ctx V Cur) :=
  let filter := Q.UpdateOne.filter q
  match Q.UpdateOne.updateDoc IsZero update with
  | .error panic => (.error panic, [])
  | .ok updateDoc =>
    if updateDoc.length = 0 then (.ok (none, none), [])
    else
      let updateBson : BsonD V := [("$set", Bson.D updateDoc)]
      (.ok (drv.UpdateOne q.collection q.ctx filter updateBson []),
        [Call.UpdateOne q.collection q.ctx filter updateBson []])

/-- The first loop of `Q.UpsertOne` over the names still to visit, with the
`filter` built so far. `fieldValue.Interface()` panics on an unexported field. -/
def Q.UpsertOne.filterLoop (promoted : Record V → String → Lookup V) (document : Record V) :
    List String → BsonD V → Except Panic (BsonD V)
  | [], filter => .ok filter
  | field :: rest, filter =>
    match document.FieldByName promoted field with
    | Lookup.nilEmbedded => .error Panic.nilEmbeddedPointer
    | Lookup.invalid => Q.UpsertOne.filterLoop promoted document rest filter
    | Lookup.field exported fieldValue =>
      if exported then
        Q.UpsertOne.filterLoop promoted document rest (filter ++ [(field, Bson.val fieldValue)])
      else .error Panic.unexportedInterface

/-- The local `filter` of `Q.UpsertOne` after its first loop, or the panic that
ends the loop. -/
def Q.UpsertOne.filter (promoted : Record V → String → Lookup V) (document : Record V)
    (uniqueFields : List String) : Except Panic (BsonD V) :=
  Q.UpsertOne.filterLoop promoted document uniqueFields []

/-- The second loop of `Q.UpsertOne` over the fields still to visit, with the
`updateDoc` built so far. -/
def Q.UpsertOne.updateDocLoop (IsZero : V → Bool) :
    List (Member V) → BsonD V → Except Panic (BsonD V)
  | [], updateDoc => .ok updateDoc
  | m :: rest, updateDoc =>
    if !IsZero m.Value then
      let fieldName := m.Tag.Get "bson"
      let fieldName := if fieldName = "" then m.Name else fieldName
      if m.Exported then
        Q.UpsertOne.updateDocLoop IsZero rest (updateDoc ++ [(fieldName, Bson.val m.Value)])
      else .error Panic.unexportedInterface
    else Q.UpsertOne.updateDocLoop IsZero rest updateDoc

/-- The local `updateDoc` of `Q.UpsertOne` after its second loop, or the panic
that ends the loop. -/
def Q.UpsertOne.updateDoc (IsZero : V → Bool) (document : Record V) :
    Except Panic (BsonD V) :=
  Q.UpsertOne.updateDocLoop IsZero document []

/-- `Q.UpsertOne`, on the record `document` points to: the returned result and
error, or the panic, and the calls made. -/
def Q.UpsertOne (drv : Driver Coll Ctx V Cur T R E) (IsZero : V → Bool)
    (promoted : Record V → String → Lookup V) (q : Q Coll Ctx V)
    (document : Record V) (uniqueFields : List String) :
    Except Panic (Option R × Option E) × List (Call Coll Ctx V Cur) :=
  match Q.UpsertOne.filter promoted document uniqueFields with
  | .error panic => (.error panic, [])
  | .ok filter =>
    match Q.UpsertOne.updateDoc IsZero document with
    | .error panic => (.error panic, [])
    | .ok updateDoc =>
      if updateDoc.length = 0 then (.ok (none, none), [])
      else
        let updateBson : BsonD V := [("$set", Bson.D updateDoc)]
        let updateOptions : UpdateOptions := { Upsert := some true }
        (.ok (drv.UpdateOne q.collection q.ctx filter updateBson [updateOptions]),
          [Call.UpdateOne q.collection q.ctx filter updateBson [updateOptions]])

end Builder

/-! ## Specification of the query builder -/

section BuilderSpec

variable {V : Type}

/-- The filter document of a condition list in the words of the specification:
one element per condition, in order, rendered `key: (operator: value)`. -/
def conditionsDoc (conds : List (QueryCondition V)) : BsonD V :=
  conds.map (fun c => (c.Field, Bson.D [(c.Op, Bson.val c.Value)]))

/-- The members of a record whose value is not the zero value of their type, in
declaration order. -/
def nonZeroMembers (IsZero : V → Bool) (p : Record V) : List (Member V) :=
  p.filter (fun m => !IsZero m.Value)

/-- The key under which the builder writes a member in an update document. -/
def updateKey (m : Member V) : String :=
  if m.Tag.Get "bson" = "" then m.Name else m.Tag.Get "bson"

/-- Whether `Interface` works on what a name resolves to: the name names no field,
or an exported field reached without a nil pointer. -/
def resolvesReadable (promoted : Record V → String → Lookup V) (d : Record V) (n : String) :
    Bool :=
  match d.FieldByName promoted n with
  | Lookup.invalid => true
  | Lookup.field exported _ => exported
  | Lookup.nilEmbedded => false

/-- The upsert filter in the words of the specification: one element per given
name that names a field of the document, in the order given, with the value of
that field. -/
def namedFieldsDoc (promoted : Record V → String → Lookup V) (d : Record V)
    (names : List String) : BsonD V :=
  names.filterMap (fun n =>
    match d.FieldByName promoted n with
    | Lookup.field _ value => some (n, Bson.val value)
    | _ => none)

end BuilderSpec

/-! ## Sample inputs -/

def sampleInt : RType := .mk Kind.Int "int" "int" []

def sampleString : RType := .mk Kind.String "string" "string" []

/-- The type `type Audit struct { CreatedBy string }`. -/
def sampleAudit : RType :=
  .mk Kind.Struct "Audit" "main.Audit" [⟨"CreatedBy", [], false, sampleString⟩]

/-- The type `type Base struct { Audit; ID int; user_id string }`, the last two
tagged "_id" and "uid,omitempty". -/
def sampleBase : RType :=
  .mk Kind.Struct "Base" "main.Base"
    [⟨"Audit", [], true, sampleAudit⟩,
     ⟨"ID", [("bson", "_id")], false, sampleInt⟩,
     ⟨"user_id", [("json", "uid"), ("bson", "uid,omitempty")], false, sampleString⟩]

/-- The field `Name string` with the tag value "name,". -/
def sampleNameField : StructField :=
  ⟨"Name", [("bson", "name,")], false, sampleString⟩

/-- The type `type User struct { Base; Name string; Age int }`. -/
def sampleUser : RType :=
  .mk Kind.Struct "User" "main.User"
    ([⟨"Base", [], true, sampleBase⟩] ++ sampleNameField :: [⟨"Age", [], false, sampleInt⟩])

/-- A generator before introspection. -/
def sampleGen : gen := { basePath := "out", objectName := "", fields := [] }

/-- The type `type Account struct { ID int }` with the member tagged "_id". -/
def sampleAccount : RType :=
  .mk Kind.Struct "Account" "main.Account" [⟨"ID", [("bson", "_id")], false, sampleInt⟩]

/-- The type `type UserInfo struct { ID int }` with the member tagged "id". -/
def sampleUserInfo : RType :=
  .mk Kind.Struct "UserInfo" "main.UserInfo" [⟨"ID", [("bson", "id")], false, sampleInt⟩]

/-- The type `type Person struct { Name string; City string }`, the first
member tagged "name,omitempty", the second without a tag. -/
def samplePerson : RType :=
  .mk Kind.Struct "Person" "main.Person"
    [⟨"Name", [("bson", "name,omitempty")], false, sampleString⟩,
     ⟨"City", [], false, sampleString⟩]

/-- The value `Person{Name: "Ann", City: "Oslo"}` of that type. -/
def samplePersonValue : Record String :=
  [⟨"Name", [("bson", "name,omitempty")], true, false, "Ann"⟩,
   ⟨"City", [], true, false, "Oslo"⟩]

/-- The value `Person{}`: every member is the empty string. -/
def samplePersonZero : Record String :=
  [⟨"Name", [("bson", "name,omitempty")], true, false, ""⟩, ⟨"City", [], true, false, ""⟩]

/-- `IsZero` on strings. -/
def stringIsZero (v : String) : Bool := v = ""

/-- A driver that answers every update with the number of filter elements as
its result and no error, and every lookup with an empty result. -/
def sampleDriver : Driver Unit Unit String Unit (Record String) Nat String where
  FindOneDecode := fun _ _ _ => ([], none)
  Find := fun _ _ _ => ((), none)
  CursorAll := fun _ _ => (none, none)
  UpdateOne := fun _ _ filter _ _ => (some filter.length, none)

/-- The search of promoted fields for the samples: the embedded `Base` of
`sampleDoc` promotes its field `ID`, which holds "7"; no other name is found. -/
def samplePromoted : Record String → String → Lookup String :=
  fun _ name => if name = "ID" then Lookup.field true "7" else Lookup.invalid

/-- The value `Hidden{Name: "Ann", secret: "s"}` with the unexported member
`secret`. -/
def sampleHidden : Record String :=
  [⟨"Name", [("bson", "name")], true, false, "Ann"⟩,
   ⟨"secret", [], false, false, "s"⟩]

/-- The value `Hidden{Name: "Ann"}`: the unexported member `secret` is zero. -/
def sampleHiddenPartial : Record String :=
  [⟨"Name", [("bson", "name")], true, false, "Ann"⟩,
   ⟨"secret", [], false, false, ""⟩]

/-- The value `Hidden{}`: every member is the empty string. -/
def sampleHiddenZero : Record String :=
  [⟨"Name", [("bson", "name")], true, false, ""⟩,
   ⟨"secret", [], false, false, ""⟩]

/-- The value `Doc{Base: Base{ID: "7"}, Name: "Ann"}` of
`type Doc struct { Base; Name string }`, where `type Base struct { ID string }`. -/
def sampleDoc : Record String :=
  [⟨"Base", [], true, true, "Base(7)"⟩,
   ⟨"Name", [("bson", "name")], true, false, "Ann"⟩]

/-- A builder with the single condition `name = "Ann"`. -/
def sampleQ : Q Unit Unit String :=
  { collection := (), ctx := (), filter := [⟨"name", "$eq", "Ann"⟩] }

/-- The type the Model artifact generated for `sampleAccount` declares:
`type Account struct { ID int }` with the member tagged "id". -/
def sampleAccountModel : RType :=
  .mk Kind.Struct "Account" "model.Account" [⟨"ID", [("bson", "id")], false, sampleInt⟩]

/-- A builder over string-valued conditions with no condition yet. -/
def sampleEmptyQ : Q Unit Unit (Iface String) :=
  { collection := (), ctx := (), filter := [] }

/-- The descriptor the generated accessor `Name()` returns. -/
def sampleNameDescriptor : common.Field String :=
  { Name := "Name", Bson := "name", Type_ := "" }

/-! ## Specification of the name casing and of the DAO artifact -/

/-- The concatenation of a list of strings, without separator. -/
def concatAll : List String → String
  | [] => ""
  | a :: rest => a ++ concatAll rest

/-- Whether position `i` of `l` comes right after a letter; `start` answers for
position 0. -/
def letterBefore (U : UnicodeTables) (start : Bool) (l : List Char) : Nat → Bool
  | 0 => start
  | j + 1 =>
    match l[j]? with
    | some p => U.IsLetter p
    | none => false

/-- The title case of the code points `l` read from a position where the flag
`upNextWord` has the value `up`: the loop of `toTitleCase` without its buffer. -/
def titleFrom (U : UnicodeTables) : Bool → List Char → List Char
  | _, [] => []
  | up, r :: str =>
    (if U.IsLetter r then (if up then U.ToUpper r else U.ToLower r) else r)
      :: titleFrom U (!U.IsLetter r) str

/-- The text of the DAO artifact before the accessors, for the entity name `e`:
the package clause, the imports, the receiver type and the singleton. -/
def daoHeader (U : UnicodeTables) (e : String) : String :=
  "\npackage dao\n\nimport (\n\t\"gen/common\"\n\t\"model\"\n)\n\ntype "
    ++ toLowerCamelCase U e ++ " struct \x7b\n\tcommon.Q[model."
    ++ toUpperCamelCase U e ++ "]\n\x7d\nvar "
    ++ toUpperCamelCase U e ++ " = &" ++ toLowerCamelCase U e ++ "\x7b\x7d\n"

/-- The text of the accessor method of a field, for the entity name `e`: named
after the declared name, returning the descriptor literal of the declared name
and the serialization key, typed to the field's type. -/
def daoAccessor (U : UnicodeTables) (e : String) (f : Field) : String :=
  "\nfunc (q *" ++ toLowerCamelCase U e ++ ") " ++ f.Name ++ "() common.Field[" ++ f.Type_
    ++ "] \x7b\n\treturn common.Field[" ++ f.Type_ ++ "]\x7bName: \"" ++ f.Name
    ++ "\",Bson: \"" ++ f.Bson ++ "\"\x7d\n\x7d"

/-! ## Further sample inputs -/

/-- The type `*User`, a pointer to a struct. -/
def samplePointer : RType := .mk Kind.Pointer "" "*main.User" []

/-- The type `type Entity struct { ID int; Name string }` with the members
tagged "id" and "name". -/
def sampleEntity : RType :=
  .mk Kind.Struct "Entity" "main.Entity"
    [⟨"ID", [("bson", "id")], false, sampleInt⟩,
     ⟨"Name", [("bson", "name")], false, sampleString⟩]

/-- The type `type Item struct { Name string }` with the member tagged
",omitempty". -/
def sampleItem : RType :=
  .mk Kind.Struct "Item" "main.Item" [⟨"Name", [("bson", ",omitempty")], false, sampleString⟩]

/-- The value `Person{Name: "Ann", City: "Oslo"}` of a generated Model `Person`,
whose members `Name` and `City` are tagged "name" and "city". -/
def sampleModelValue : Record String :=
  [⟨"Name", [("bson", "name")], true, false, "Ann"⟩,
   ⟨"City", [("bson", "city")], true, false, "Oslo"⟩]

/-- An operating system without state in which creating the directory `denied`
fails and every other call succeeds; an open file is given by its name, and
`Join` puts a slash between its elements. -/
def sampleOs (denied : String) : Os Unit String String where
  Join := fun a b => a ++ "/" ++ b
  MkdirAll := fun _ path _ => ((), if path = denied then some "permission denied" else none)
  Create := fun _ name => ((), name, none)
  WriteString := fun _ _ _ => ((), none)
  Close := fun _ _ => ()

/-- An operating system without state in which making the directory `noDir`,
creating the file `noFile` and writing to the file `noWrite` fail and every other
call succeeds; an open file is given by its name, and `Join` puts a slash
between its elements. -/
def sampleOsFailing (noDir noFile noWrite : String) : Os Unit String String where
  Join := fun a b => a ++ "/" ++ b
  MkdirAll := fun _ path _ => ((), if path = noDir then some "mkdir failed" else none)
  Create := fun _ name => ((), name, if name = noFile then some "create failed" else none)
  WriteString := fun _ f _ => ((), if f = noWrite then some "write failed" else none)
  Close := fun _ _ => ()

/-- Whether a `WriteString` is among the calls. -/
def writesFile {F : Type} (calls : List (OsCall F)) : Bool :=
  calls.any (fun c => match c with
    | OsCall.WriteString _ _ => true
    | _ => false)

/-! ## Lemmas on the string functions -/

theorem splitAux_ne_nil (sep : Char) (cs cur : List Char) : splitAux sep cs cur ≠ [] := by
  induction cs generalizing cur with
  | nil => simp [splitAux]
  | cons c cs ih =>
    unfold splitAux
    split
    · simp
    · exact ih _

theorem splitAux_head (sep : Char) (cs cur : List Char) (d : String) :
    (splitAux sep cs cur).headD d = String.mk (cur ++ cs.takeWhile (fun c => c ≠ sep)) := by
  induction cs generalizing cur with
  | nil => simp [splitAux]
  | cons c cs ih =>
    unfold splitAux
    by_cases h : c = sep
    · simp [h]
    · rw [if_neg h, ih]
      simp [h, List.takeWhile_cons]

theorem strings_Split_length_pos (s : String) (sep : Char) : (strings_Split s sep).length > 0 :=
  List.length_pos.mpr (splitAux_ne_nil sep s.data [])

theorem strings_HasSuffix_comma (t : String) :
    strings_HasSuffix t "," = true ↔ t.data.getLast? = some ',' := by
  unfold strings_HasSuffix
  rw [List.isSuffixOf_iff_suffix]
  show [','] <:+ t.data ↔ _
  constructor
  · rintro ⟨pre, h⟩
    rw [← h]; simp
  · intro h
    obtain ⟨pre, hp⟩ := List.getLast?_eq_some_iff.mp h
    exact ⟨pre, hp.symm⟩

/-- The key computed by the loop bodies of `parseStruct` and `parseEmbeddedFields`
is the serialization key. -/
theorem loop_key_eq (U : UnicodeTables) (n t : String) :
    (if (decide (t ≠ "") && !strings_HasSuffix t ",") = true then
        if (strings_Split t ',').length > 0 then (strings_Split t ',').headD (toLowerCamelCase U n)
        else toLowerCamelCase U n
      else toLowerCamelCase U n) = serializationKey U n t := by
  unfold serializationKey
  have hs : strings_HasSuffix t "," = true ↔ t.data.getLast? = some ',' :=
    strings_HasSuffix_comma t
  by_cases h1 : t = ""
  · simp [h1]
  · by_cases h2 : t.data.getLast? = some ','
    · simp [h1, h2, hs.mpr h2]
    · have h3 : strings_HasSuffix t "," = false := by
        cases hb : strings_HasSuffix t "," with
        | false => rfl
        | true => exact absurd (hs.mp hb) h2
      rw [if_pos (by simp [h1, h3]), if_pos (strings_Split_length_pos t ','),
        if_pos ⟨h1, h2⟩]
      unfold strings_Split
      rw [splitAux_head]
      simp

/-! ## The introspector computes the flattening -/

mutual
theorem parseEmbeddedFields_eq (U : UnicodeTables) :
    ∀ t : RType, parseEmbeddedFields U t = .ok (flattenType U t)
  | .mk _ _ _ fs => by
    rw [parseEmbeddedFields, flattenType, parseEmbeddedFieldsLoop_eq U fs []]
    simp
theorem parseEmbeddedFieldsLoop_eq (U : UnicodeTables) :
    ∀ (fs : List (StructFieldOf RType)) (acc : List Field),
      parseEmbeddedFieldsLoop U fs acc = .ok (acc ++ flattenFields U fs)
  | [], acc => by simp [parseEmbeddedFieldsLoop, flattenFields]
  | ⟨n, tag, anon, ty⟩ :: rest, acc => by
    rw [parseEmbeddedFieldsLoop, flattenFields]
    by_cases h : (anon && ty.Kind == Kind.Struct) = true
    · rw [if_pos h, if_pos h, parseEmbeddedFields_eq U ty]
      simp only []
      rw [parseEmbeddedFieldsLoop_eq U rest]
      simp
    · rw [if_neg h, if_neg h]
      simp only []
      rw [parseEmbeddedFieldsLoop_eq U rest, loop_key_eq]
      simp [leafEntry]
end

theorem parseStructLoop_eq (U : UnicodeTables) (fs : List StructField) (acc : List Field) :
    parseStructLoop U fs acc = .ok (acc ++ flattenFields U fs) := by
  induction fs generalizing acc with
  | nil => simp [parseStructLoop, flattenFields]
  | cons f rest ih =>
    obtain ⟨n, tag, anon, ty⟩ := f
    rw [parseStructLoop, flattenFields]
    by_cases h : (anon && ty.Kind == Kind.Struct) = true
    · rw [if_pos h, if_pos h, parseEmbeddedFields_eq U ty]
      simp only []
      rw [ih]
      simp
    · rw [if_neg h, if_neg h]
      simp only []
      rw [ih, loop_key_eq]
      simp [leafEntry]

theorem flattenFields_append (U : UnicodeTables) (a b : List StructField) :
    flattenFields U (a ++ b) = flattenFields U a ++ flattenFields U b := by
  induction a with
  | nil => simp [flattenFields]
  | cons f rest ih =>
    obtain ⟨n, tag, anon, ty⟩ := f
    rw [List.cons_append, flattenFields, flattenFields, ih, List.append_assoc]

theorem flattenFields_leaf (U : UnicodeTables) (f : StructField) (rest : List StructField)
    (h : isEmbeddedStruct f = false) :
    flattenFields U (f :: rest) = leafEntry U f :: flattenFields U rest := by
  obtain ⟨n, tag, anon, ty⟩ := f
  have h0 : ¬ ((anon && ty.Kind == Kind.Struct) = true) := by
    simpa [isEmbeddedStruct] using h
  rw [flattenFields, if_neg h0]
  rfl

mutual
theorem flattenType_length (U : UnicodeTables) :
    ∀ t : RType, (flattenType U t).length = leafCount t
  | .mk _ _ _ fs => by
    rw [flattenType, leafCount, flattenFields_length U fs]
theorem flattenFields_length (U : UnicodeTables) :
    ∀ fs : List (StructFieldOf RType), (flattenFields U fs).length = leafCountFields fs
  | [] => by simp [flattenFields, leafCountFields]
  | ⟨n, tag, anon, ty⟩ :: rest => by
    rw [flattenFields, leafCountFields, List.length_append, flattenFields_length U rest]
    by_cases h : (anon && ty.Kind == Kind.Struct) = true
    · rw [if_pos h, if_pos h, flattenType_length U ty]
    · rw [if_neg h, if_neg h]
      rfl
end

theorem parseStruct_struct (U : UnicodeTables) (s : gen) (typ : RType)
    (h : typ.Kind = Kind.Struct) :
    gen.parseStruct U s typ
      = (none, { s with fields := flattenType U typ, objectName := typ.Name }) := by
  obtain ⟨k, nm, str, fs⟩ := typ
  simp only [RType.Kind] at h
  subst h
  simp [gen.parseStruct, RType.Kind, RType.Fields, RType.Name, parseStructLoop_eq, flattenType]

/-! ## Lemmas on the loops of the query builder -/

theorem foldl_append_map {α β : Type} (f : α → β) (l : List α) (init : List β) :
    l.foldl (fun acc x => acc ++ [f x]) init = init ++ l.map f := by
  induction l generalizing init with
  | nil => simp
  | cons x xs ih => simp [ih]

theorem foldl_append_filter_map {α β : Type} (c : α → Bool) (f : α → β) (l : List α)
    (init : List β) :
    l.foldl (fun acc x => if c x then acc ++ [f x] else acc) init
      = init ++ (l.filter c).map f := by
  induction l generalizing init with
  | nil => simp
  | cons x xs ih =>
    by_cases h : c x = true
    · simp [ih, h]
    · simp [ih, h]

theorem foldl_append_filterMap {α β γ : Type} (g : α → Option γ) (f : α → γ → β) (l : List α)
    (init : List β) :
    l.foldl (fun acc x => match g x with
        | some y => acc ++ [f x y]
        | none => acc) init
      = init ++ l.filterMap (fun x => (g x).map (f x)) := by
  induction l generalizing init with
  | nil => simp
  | cons x xs ih =>
    cases h : g x with
    | none => simp [ih, h, List.filterMap_cons]
    | some y => simp [ih, h, List.filterMap_cons]

section BuilderLemmas

variable {Coll Ctx V Cur T R E : Type}

theorem First_filter_eq (q : Q Coll Ctx V) : Q.First.filter q = conditionsDoc q.filter := by
  unfold Q.First.filter conditionsDoc
  rw [foldl_append_map]
  simp

theorem Find_filter_eq (q : Q Coll Ctx V) : Q.Find.filter q = conditionsDoc q.filter := by
  unfold Q.Find.filter conditionsDoc
  rw [foldl_append_map]
  simp

theorem UpdateOne_filter_eq (q : Q Coll Ctx V) :
    Q.UpdateOne.filter q = conditionsDoc q.filter := by
  unfold Q.UpdateOne.filter conditionsDoc
  rw [foldl_append_map]
  simp

theorem updateDocLoop_ok (IsZero : V → Bool) (l : List (Member V)) (acc : BsonD V)
    (h : ∀ m ∈ l, IsZero m.Value = false → m.Exported = true) :
    Q.UpdateOne.updateDocLoop IsZero l acc
      = .ok (acc ++ (nonZeroMembers IsZero l).map (fun m => (updateKey m, Bson.val m.Value))) := by
  induction l generalizing acc with
  | nil => simp [Q.UpdateOne.updateDocLoop, nonZeroMembers]
  | cons m rest ih =>
    have hrest : ∀ x ∈ rest, IsZero x.Value = false → x.Exported = true :=
      fun x hx => h x (List.mem_cons_of_mem m hx)
    unfold Q.UpdateOne.updateDocLoop
    cases hz : IsZero m.Value with
    | true =>
      simp only [Bool.not_true, Bool.false_eq_true, if_false]
      rw [ih _ hrest]
      simp [nonZeroMembers, hz]
    | false =>
      have he : m.Exported = true := h m (List.mem_cons_self m rest) hz
      simp only [Bool.not_false, if_true, he]
      rw [ih _ hrest]
      simp [nonZeroMembers, hz, updateKey]

theorem updateDocLoop_panics (IsZero : V → Bool) (l : List (Member V)) (acc : BsonD V)
    (h : ∃ m ∈ l, IsZero m.Value = false ∧ m.Exported = false) :
    Q.UpdateOne.updateDocLoop IsZero l acc = .error Panic.unexportedInterface := by
  induction l generalizing acc with
  | nil =>
    obtain ⟨m, hm, _⟩ := h
    cases hm
  | cons x rest ih =>
    unfold Q.UpdateOne.updateDocLoop
    cases hz : IsZero x.Value with
    | true =>
      simp only [Bool.not_true, Bool.false_eq_true, if_false]
      apply ih
      obtain ⟨m, hm, hmz, hme⟩ := h
      rcases List.mem_cons.mp hm with hx | hr
      · subst hx
        rw [hz] at hmz
        exact Bool.noConfusion hmz
      · exact ⟨m, hr, hmz, hme⟩
    | false =>
      simp only [Bool.not_false, if_true]
      cases he : x.Exported with
      | false => simp
      | true =>
        simp only [if_true]
        apply ih
        obtain ⟨m, hm, hmz, hme⟩ := h
        rcases List.mem_cons.mp hm with hx | hr
        · subst hx
          rw [he] at hme
          exact Bool.noConfusion hme
        · exact ⟨m, hr, hmz, hme⟩

theorem upsert_updateDocLoop_eq (IsZero : V → Bool) (l : List (Member V)) (acc : BsonD V) :
    Q.UpsertOne.updateDocLoop IsZero l acc = Q.UpdateOne.updateDocLoop IsZero l acc := by
  induction l generalizing acc with
  | nil => rfl
  | cons m rest ih =>
    unfold Q.UpsertOne.updateDocLoop Q.UpdateOne.updateDocLoop
    simp only [ih]

theorem UpsertOne_updateDoc_same (IsZero : V → Bool) (p : Record V) :
    Q.UpsertOne.updateDoc IsZero p = Q.UpdateOne.updateDoc IsZero p :=
  upsert_updateDocLoop_eq IsZero p []

theorem UpdateOne_updateDoc_eq (IsZero : V → Bool) (p : Record V)
    (h : ∀ m ∈ p, IsZero m.Value = false → m.Exported = true) :
    Q.UpdateOne.updateDoc IsZero p
      = .ok ((nonZeroMembers IsZero p).map (fun m => (updateKey m, Bson.val m.Value))) := by
  unfold Q.UpdateOne.updateDoc
  rw [updateDocLoop_ok IsZero p [] h]
  simp

theorem filterLoop_ok (promoted : Record V → String → Lookup V) (d : Record V)
    (names : List String) (acc : BsonD V)
    (h : ∀ n ∈ names, resolvesReadable promoted d n = true) :
    Q.UpsertOne.filterLoop promoted d names acc = .ok (acc ++ namedFieldsDoc promoted d names) := by
  induction names generalizing acc with
  | nil => simp [Q.UpsertOne.filterLoop, namedFieldsDoc]
  | cons n rest ih =>
    have hrest : ∀ x ∈ rest, resolvesReadable promoted d x = true :=
      fun x hx => h x (List.mem_cons_of_mem n hx)
    have hn := h n (List.mem_cons_self n rest)
    unfold resolvesReadable at hn
    unfold Q.UpsertOne.filterLoop
    cases hl : Record.FieldByName promoted d n with
    | invalid =>
      simp only []
      rw [ih _ hrest]
      simp [namedFieldsDoc, List.filterMap_cons, hl]
    | nilEmbedded =>
      rw [hl] at hn
      exact Bool.noConfusion hn
    | field exported value =>
      rw [hl] at hn
      simp only [] at hn
      subst hn
      simp only [if_true]
      rw [ih _ hrest]
      simp [namedFieldsDoc, List.filterMap_cons, hl]

theorem UpsertOne_filter_eq (promoted : Record V → String → Lookup V) (d : Record V)
    (names : List String) (h : ∀ n ∈ names, resolvesReadable promoted d n = true) :
    Q.UpsertOne.filter promoted d names = .ok (namedFieldsDoc promoted d names) := by
  unfold Q.UpsertOne.filter
  rw [filterLoop_ok promoted d names [] h]
  simp

theorem nonZeroMembers_eq_nil_iff (IsZero : V → Bool) (p : Record V) :
    nonZeroMembers IsZero p = [] ↔ ∀ m ∈ p, IsZero m.Value = true := by
  unfold nonZeroMembers
  simp [List.filter_eq_nil_iff]

end BuilderLemmas

/-! ## The introspector -/

/-- C1: a leaf field with declared name `n` and bson tag `t`, at any position of
a struct type, is recorded by `parseStruct` and by `parseEmbeddedFields` with the
key `serializationKey n t`: the part of `t` before the first comma when `t` is
non-empty and does not end with a comma, and `toLowerCamelCase n` otherwise. A
field whose tag is "name," is recorded with the derived key. -/
theorem C1_leaf_key_recorded (U : UnicodeTables) (s : gen) (name str : String)
    (pre post : List StructField) (f : StructField) (hleaf : isEmbeddedStruct f = false) :
    (gen.parseStruct U s (.mk Kind.Struct name str (pre ++ f :: post))).2.fields
        = flattenFields U pre
          ++ { Name := f.Name, Bson := serializationKey U f.Name (f.Tag.Get "bson"),
               Type_ := f.Type_.String } :: flattenFields U post
    ∧ parseEmbeddedFields U (.mk Kind.Struct name str (pre ++ f :: post))
        = .ok (flattenFields U pre
          ++ { Name := f.Name, Bson := serializationKey U f.Name (f.Tag.Get "bson"),
               Type_ := f.Type_.String } :: flattenFields U post)
    ∧ (f.Tag.Get "bson" = "name," →
        (gen.parseStruct U s (.mk Kind.Struct name str [f])).2.fields
          = [{ Name := f.Name, Bson := toLowerCamelCase U f.Name, Type_ := f.Type_.String }]) := by
  have hflat : flattenFields U (pre ++ f :: post)
      = flattenFields U pre
          ++ { Name := f.Name, Bson := serializationKey U f.Name (f.Tag.Get "bson"),
               Type_ := f.Type_.String } :: flattenFields U post := by
    rw [flattenFields_append, flattenFields_leaf U f post hleaf]
    rfl
  refine ⟨?_, ?_, ?_⟩
  · rw [parseStruct_struct U s (.mk Kind.Struct name str (pre ++ f :: post)) rfl, flattenType,
      hflat]
  · rw [parseEmbeddedFields_eq, flattenType, hflat]
  · intro ht
    rw [parseStruct_struct U s (.mk Kind.Struct name str [f]) rfl, flattenType,
      flattenFields_leaf U f [] hleaf]
    simp [flattenFields, leafEntry, serializationKey, ht]

/-- The field `Name` tagged "name," of the sample type `User` is recorded with the
key "name", after the three leaf fields of the embedded `Base`. -/
theorem C1_leaf_key_recorded_witness :
    isEmbeddedStruct sampleNameField = false
    ∧ sampleNameField.Tag.Get "bson" = "name,"
    ∧ (gen.parseStruct asciiTables sampleGen sampleUser).2.fields.map (fun e => e.Bson)
        = ["createdby", "_id", "uid", "name", "age"]
    ∧ (gen.parseStruct asciiTables sampleGen
          (.mk Kind.Struct "User" "main.User" [sampleNameField])).2.fields
        = [{ Name := "Name", Bson := "name", Type_ := "string" }] := by
  have h := C1_leaf_key_recorded asciiTables sampleGen "User" "main.User"
    [⟨"Base", [], true, sampleBase⟩] [⟨"Age", [], false, sampleInt⟩] sampleNameField
    (by decide)
  refine ⟨by decide, by decide, ?_, ?_⟩
  · have h1 := h.1
    rw [show (RType.mk Kind.Struct "User" "main.User"
        ([⟨"Base", [], true, sampleBase⟩] ++ sampleNameField :: [⟨"Age", [], false, sampleInt⟩]))
        = sampleUser from rfl] at h1
    rw [h1]
    decide
  · rw [h.2.2 (by decide)]
    decide

/-- C2: for every type of struct kind `parseStruct` succeeds and its field list
is the depth-first flattening in declaration order (an anonymous embedded struct
replaced in place by its own flattening, one entry for every other field), so
its length is the number of leaf fields across all embedding levels. -/
theorem C2_depth_first_flattening (U : UnicodeTables) (s : gen) (typ : RType)
    (h : typ.Kind = Kind.Struct) :
    (gen.parseStruct U s typ).1 = none
    ∧ (gen.parseStruct U s typ).2.fields = flattenType U typ
    ∧ (gen.parseStruct U s typ).2.fields.length = leafCount typ := by
  rw [parseStruct_struct U s typ h]
  exact ⟨rfl, rfl, flattenType_length U typ⟩

/-- The sample type `User` embeds `Base`, which embeds `Audit`: five leaf fields
over three levels. -/
theorem C2_depth_first_flattening_witness :
    sampleUser.Kind = Kind.Struct
    ∧ (gen.parseStruct asciiTables sampleGen sampleUser).2.fields.length = 5
    ∧ (gen.parseStruct asciiTables sampleGen sampleUser).2.fields.map (fun e => e.Name)
        = ["CreatedBy", "ID", "user_id", "Name", "Age"] := by
  have h := C2_depth_first_flattening asciiTables sampleGen sampleUser (by decide)
  refine ⟨by decide, ?_, ?_⟩
  · rw [h.2.2]
    decide
  · rw [h.2.1]
    decide

/-! ## Emission -/

set_option maxRecDepth 100000

/-- C3, at the entity `type Account struct { ID int }` with the member tagged
"_id": the introspector records the key "_id", and `genModel` annotates the
member with "id", the lower camel case of its name; introspecting the generated
Model gives the key "id". -/
theorem C3_model_annotation_ignores_key :
    (gen.parseStruct asciiTables sampleGen sampleAccount).2.fields
        = [{ Name := "ID", Bson := "_id", Type_ := "int" }]
    ∧ (gen.parseStruct asciiTables sampleGen sampleAccount).2.genModelFieldsArr asciiTables
        = ["ID int `bson:\"id\"`"]
    ∧ (gen.parseStruct asciiTables sampleGen sampleAccount).2.genModelCode asciiTables
        = "\npackage model\n\ntype Account struct \x7b\nID int `bson:\"id\"`\n\x7d\n"
    ∧ (gen.parseStruct asciiTables sampleGen sampleAccountModel).2.fields
        = [{ Name := "ID", Bson := "id", Type_ := "int" }] := by
  decide

/-- C4, at the entity `type UserInfo struct { ID int }`: the Model artifact
declares the type `UserInfo`, the declared name as it is, and the DAO artifact
parameterizes its query object with `model.Userinfo`, the upper camel case. -/
theorem C4_model_name_differs_from_dao :
    toUpperCamelCase asciiTables "UserInfo" = "Userinfo"
    ∧ (gen.parseStruct asciiTables sampleGen sampleUserInfo).2.genModelCode asciiTables
        = "\npackage model\n\ntype UserInfo struct \x7b\nID int `bson:\"id\"`\n\x7d\n"
    ∧ (gen.parseStruct asciiTables sampleGen sampleUserInfo).2.genDaoCode asciiTables
        = "\npackage dao\n\nimport (\n\t\"gen/common\"\n\t\"model\"\n)\n\ntype userinfo struct \x7b\n\tcommon.Q[model.Userinfo]\n\x7d\nvar Userinfo = &userinfo\x7b\x7d\n\nfunc (q *userinfo) ID() common.Field[int] \x7b\n\treturn common.Field[int]\x7bName: \"ID\",Bson: \"id\"\x7d\n\x7d" := by
  decide

/-! ## The query builder -/

section BuilderClaims

variable {Coll Ctx V Cur T R E : Type}

/-- C5 as amended: for every record the update loops of `UpdateOne(p)` and of
`UpsertOne(&p, names)` give the same; for a record `p` whose non-zero members are
all exported, the update document they build has one element for exactly the
members of `p` whose value is not zero, in declaration order, each with the
member's value; when it is not empty it is sent wrapped as the single element
"$set" of the update, by `UpdateOne`, and by `UpsertOne` whenever its filter
loop completes. -/
theorem C5_sparse_update_document (drv : Driver Coll Ctx V Cur T R E) (IsZero : V → Bool)
    (promoted : Record V → String → Lookup V) (q : Q Coll Ctx V) (p : Record V)
    (names : List String) :
    Q.UpsertOne.updateDoc IsZero p = Q.UpdateOne.updateDoc IsZero p
    ∧ ((∀ m ∈ p, IsZero m.Value = false → m.Exported = true) →
        Q.UpdateOne.updateDoc IsZero p
            = .ok ((nonZeroMembers IsZero p).map (fun m => (updateKey m, Bson.val m.Value)))
        ∧ (Q.UpdateOne drv IsZero q p).2
            = (if ((nonZeroMembers IsZero p).map
                    (fun m => (updateKey m, Bson.val m.Value))).isEmpty
               then []
               else [Call.UpdateOne q.collection q.ctx (Q.UpdateOne.filter q)
                      [("$set", Bson.D
                        ((nonZeroMembers IsZero p).map
                          (fun m => (updateKey m, Bson.val m.Value))))]
                      []])
        ∧ (∀ filter : BsonD V, Q.UpsertOne.filter promoted p names = .ok filter →
            (Q.UpsertOne drv IsZero promoted q p names).2
              = (if ((nonZeroMembers IsZero p).map
                      (fun m => (updateKey m, Bson.val m.Value))).isEmpty
                 then []
                 else [Call.UpdateOne q.collection q.ctx filter
                        [("$set", Bson.D
                          ((nonZeroMembers IsZero p).map
                            (fun m => (updateKey m, Bson.val m.Value))))]
                        [{ Upsert := some true }]]))) := by
  have hu := UpsertOne_updateDoc_same IsZero p
  refine ⟨hu, ?_⟩
  intro hexp
  have hd := UpdateOne_updateDoc_eq IsZero p hexp
  refine ⟨hd, ?_, ?_⟩
  · unfold Q.UpdateOne
    rw [hd]
    cases h : (nonZeroMembers IsZero p).map (fun m => (updateKey m, Bson.val m.Value)) with
    | nil => simp
    | cons e es => simp
  · intro filter hf
    unfold Q.UpsertOne
    rw [hf, hu, hd]
    cases h : (nonZeroMembers IsZero p).map (fun m => (updateKey m, Bson.val m.Value)) with
    | nil => simp
    | cons e es => simp

/-- C6, at the record `Person{Name: "Ann", City: "Oslo"}` whose member `Name` is
tagged "name,omitempty" and whose member `City` has no tag: `UpdateOne` writes
them under the keys "name,omitempty" and "City", and the introspector derives
the serialization keys "name" and "city" for the same members. -/
theorem C6_update_key_is_not_serialization_key :
    Q.UpdateOne.updateDoc stringIsZero samplePersonValue
        = .ok [("name,omitempty", Bson.val "Ann"), ("City", Bson.val "Oslo")]
    ∧ (Q.UpdateOne sampleDriver stringIsZero sampleQ samplePersonValue).2
        = [Call.UpdateOne () () [("name", Bson.D [("$eq", Bson.val "Ann")])]
            [("$set", Bson.D [("name,omitempty", Bson.val "Ann"), ("City", Bson.val "Oslo")])] []]
    ∧ (gen.parseStruct asciiTables sampleGen samplePerson).2.fields
        = [{ Name := "Name", Bson := "name", Type_ := "string" },
           { Name := "City", Bson := "city", Type_ := "string" }] :=
  ⟨rfl, rfl, by decide⟩

/-- C7 as amended: when every member of `p` is zero, `UpdateOne(p)` returns the
nil result and the nil error and calls nothing, and so does `UpsertOne(&p, names)`
when every given name names no field or an exported one; when some member is not
zero and the non-zero members are all exported, `UpdateOne` makes exactly one
call, an update of the collection, and returns the driver's answer to that call
as it is, and so does `UpsertOne` when every given name names no field or an
exported one. -/
theorem C7_noop_or_single_write (drv : Driver Coll Ctx V Cur T R E) (IsZero : V → Bool)
    (promoted : Record V → String → Lookup V) (q : Q Coll Ctx V) (p : Record V)
    (names : List String) :
    ((∀ m ∈ p, IsZero m.Value = true) →
        Q.UpdateOne drv IsZero q p = (.ok (none, none), [])
        ∧ ((∀ n ∈ names, resolvesReadable promoted p n = true) →
            Q.UpsertOne drv IsZero promoted q p names = (.ok (none, none), [])))
    ∧ ((∃ m ∈ p, IsZero m.Value = false) →
        (∀ m ∈ p, IsZero m.Value = false → m.Exported = true) →
        Q.UpdateOne drv IsZero q p
            = (.ok (drv.UpdateOne q.collection q.ctx (Q.UpdateOne.filter q)
                [("$set", Bson.D
                  ((nonZeroMembers IsZero p).map (fun m => (updateKey m, Bson.val m.Value))))]
                []),
               [Call.UpdateOne q.collection q.ctx (Q.UpdateOne.filter q)
                [("$set", Bson.D
                  ((nonZeroMembers IsZero p).map (fun m => (updateKey m, Bson.val m.Value))))]
                []])
        ∧ ((∀ n ∈ names, resolvesReadable promoted p n = true) →
            Q.UpsertOne drv IsZero promoted q p names
              = (.ok (drv.UpdateOne q.collection q.ctx (namedFieldsDoc promoted p names)
                  [("$set", Bson.D
                    ((nonZeroMembers IsZero p).map (fun m => (updateKey m, Bson.val m.Value))))]
                  [{ Upsert := some true }]),
                 [Call.UpdateOne q.collection q.ctx (namedFieldsDoc promoted p names)
                  [("$set", Bson.D
                    ((nonZeroMembers IsZero p).map (fun m => (updateKey m, Bson.val m.Value))))]
                  [{ Upsert := some true }]]))) := by
  have hu := UpsertOne_updateDoc_same IsZero p
  constructor
  · intro hz
    have hexp : ∀ m ∈ p, IsZero m.Value = false → m.Exported = true := by
      intro m hm hmz
      rw [hz m hm] at hmz
      exact Bool.noConfusion hmz
    have hd := UpdateOne_updateDoc_eq IsZero p hexp
    rw [(nonZeroMembers_eq_nil_iff IsZero p).mpr hz] at hd
    constructor
    · unfold Q.UpdateOne
      rw [hd]
      simp
    · intro hn
      unfold Q.UpsertOne
      rw [UpsertOne_filter_eq promoted p names hn, hu, hd]
      simp
  · rintro ⟨m, hm, hmz⟩ hexp
    have hd := UpdateOne_updateDoc_eq IsZero p hexp
    have hne : ((nonZeroMembers IsZero p).map
        (fun m => (updateKey m, Bson.val m.Value))).length ≠ 0 := by
      rw [List.length_map]
      intro h0
      have hnil := List.length_eq_zero.mp h0
      have hall := (nonZeroMembers_eq_nil_iff IsZero p).mp hnil m hm
      rw [hall] at hmz
      exact Bool.noConfusion hmz
    constructor
    · unfold Q.UpdateOne
      rw [hd]
      simp only []
      rw [if_neg hne]
    · intro hn
      unfold Q.UpsertOne
      rw [UpsertOne_filter_eq promoted p names hn, hu, hd]
      simp only []
      rw [if_neg hne]

/-- C8 as amended: when every given name names no field or an exported field of
the document, the filter `UpsertOne` builds has one element per given name that
names a field of the document, direct or promoted, in the order given, with that
field's value; it is the filter of the update `UpsertOne` sends; and a builder
with another condition list behaves the same, for every document and every list
of names. -/
theorem C8_upsert_filter_from_named_fields (drv : Driver Coll Ctx V Cur T R E)
    (IsZero : V → Bool) (promoted : Record V → String → Lookup V) (q : Q Coll Ctx V)
    (d : Record V) (names : List String) (conds : List (QueryCondition V)) :
    Q.UpsertOne drv IsZero promoted { q with filter := conds } d names
        = Q.UpsertOne drv IsZero promoted q d names
    ∧ ((∀ n ∈ names, resolvesReadable promoted d n = true) →
        Q.UpsertOne.filter promoted d names = .ok (namedFieldsDoc promoted d names)
        ∧ (∀ doc : BsonD V, Q.UpsertOne.updateDoc IsZero d = .ok doc →
            (Q.UpsertOne drv IsZero promoted q d names).2
              = (if doc.isEmpty then []
                 else [Call.UpdateOne q.collection q.ctx (namedFieldsDoc promoted d names)
                        [("$set", Bson.D doc)] [{ Upsert := some true }]]))) := by
  refine ⟨rfl, ?_⟩
  intro hread
  have hf := UpsertOne_filter_eq promoted d names hread
  refine ⟨hf, ?_⟩
  intro doc hdoc
  unfold Q.UpsertOne
  rw [hf, hdoc]
  cases doc with
  | nil => simp
  | cons e es => simp

/-- C9: the filter built by `First`, by `Find` and by `UpdateOne` is the same
document, one element per accumulated condition, in order, each rendered
`Field: (Op: Value)`; it is the filter of the lookup `First` makes, of the lookup
`Find` makes first and of the update `UpdateOne` sends. The condition
`Name().Eq("Ann")` gives `name: ($eq: "Ann")`, and no condition gives the empty
filter. -/
theorem C9_filter_document (drv : Driver Coll Ctx V Cur T R E) (IsZero : V → Bool)
    (q : Q Coll Ctx V) (p : Record V) :
    Q.First.filter q = conditionsDoc q.filter
    ∧ Q.Find.filter q = conditionsDoc q.filter
    ∧ Q.UpdateOne.filter q = conditionsDoc q.filter
    ∧ (Q.First drv q).2 = [Call.FindOne q.collection q.ctx (conditionsDoc q.filter)]
    ∧ (Q.Find drv q).2.head? = some (Call.Find q.collection q.ctx (conditionsDoc q.filter))
    ∧ (Q.UpdateOne drv IsZero q p).2
        = (match Q.UpdateOne.updateDoc IsZero p with
           | .error _ => []
           | .ok updateDoc =>
             if updateDoc.isEmpty then []
             else [Call.UpdateOne q.collection q.ctx (conditionsDoc q.filter)
                    [("$set", Bson.D updateDoc)] []])
    ∧ Q.First.filter (Q.Where sampleEmptyQ [sampleNameDescriptor.Eq "Ann"])
        = [("name", Bson.D [("$eq", Bson.val (Iface.value "Ann"))])]
    ∧ Q.First.filter ({ q with filter := [] } : Q Coll Ctx V) = [] := by
  refine ⟨First_filter_eq q, Find_filter_eq q, UpdateOne_filter_eq q, ?_, ?_, ?_, rfl, rfl⟩
  · unfold Q.First
    rw [First_filter_eq]
  · unfold Q.Find
    rw [Find_filter_eq]
    rcases hf : drv.Find q.collection q.ctx (conditionsDoc q.filter) with ⟨cursor, _ | err⟩
    · rcases ha : drv.CursorAll cursor q.ctx with ⟨results, _ | err⟩ <;> simp [hf, ha]
    · simp [hf]
  · unfold Q.UpdateOne
    rw [UpdateOne_filter_eq]
    cases h : Q.UpdateOne.updateDoc IsZero p with
    | error e => simp
    | ok doc =>
      cases doc with
      | nil => simp
      | cons e es => simp

end BuilderClaims

/-- C5 as stated fails: in `Hidden{Name: "Ann", secret: "s"}` both members are
not zero, and `UpdateOne` and `UpsertOne` panic at the unexported `secret`: no
update document is built and nothing is sent. In `Hidden{Name: "Ann"}` the only
non-zero member is exported, and `UpsertOne` with the unique name "secret" still
panics, in its filter loop, before it builds the update document. -/
theorem C5_unexported_member_panics :
    (nonZeroMembers stringIsZero sampleHidden).map (fun m => m.Name) = ["Name", "secret"]
    ∧ Q.UpdateOne.updateDoc stringIsZero sampleHidden = .error Panic.unexportedInterface
    ∧ Q.UpsertOne.updateDoc stringIsZero sampleHidden = .error Panic.unexportedInterface
    ∧ Q.UpdateOne sampleDriver stringIsZero sampleQ sampleHidden
        = (.error Panic.unexportedInterface, [])
    ∧ Q.UpsertOne sampleDriver stringIsZero samplePromoted sampleQ sampleHidden ["Name"]
        = (.error Panic.unexportedInterface, [])
    ∧ (nonZeroMembers stringIsZero sampleHiddenPartial).map (fun m => (m.Name, m.Exported))
        = [("Name", true)]
    ∧ Q.UpsertOne sampleDriver stringIsZero samplePromoted sampleQ sampleHiddenPartial ["secret"]
        = (.error Panic.unexportedInterface, []) :=
  ⟨by decide, rfl, rfl, rfl, rfl, by decide, rfl⟩

/-- With exported members only, `Person{Name: "Ann", City: "Oslo"}` gives the
document of both members, sent by `UpdateOne` and, with the filter of the name
"Name", by `UpsertOne`. -/
theorem C5_sparse_update_document_witness :
    (∀ m ∈ samplePersonValue, stringIsZero m.Value = false → m.Exported = true)
    ∧ Q.UpsertOne.filter samplePromoted samplePersonValue ["Name"]
        = .ok [("Name", Bson.val "Ann")]
    ∧ Q.UpdateOne.updateDoc stringIsZero samplePersonValue
        = .ok [("name,omitempty", Bson.val "Ann"), ("City", Bson.val "Oslo")]
    ∧ (Q.UpsertOne sampleDriver stringIsZero samplePromoted sampleQ samplePersonValue
          ["Name"]).2
        = [Call.UpdateOne () () [("Name", Bson.val "Ann")]
            [("$set", Bson.D [("name,omitempty", Bson.val "Ann"), ("City", Bson.val "Oslo")])]
            [{ Upsert := some true }]] := by
  have hexp : ∀ m ∈ samplePersonValue, stringIsZero m.Value = false → m.Exported = true := by
    simp [samplePersonValue]
  have hf : Q.UpsertOne.filter samplePromoted samplePersonValue ["Name"]
      = .ok [("Name", Bson.val "Ann")] := rfl
  have h := (C5_sparse_update_document sampleDriver stringIsZero samplePromoted sampleQ
    samplePersonValue ["Name"]).2 hexp
  refine ⟨hexp, hf, ?_, ?_⟩
  · rw [h.1]
    rfl
  · rw [h.2.2 _ hf]
    rfl

/-- C7 as stated fails: `Hidden{}` has only zero members, and `UpsertOne` with
the unique name "secret" panics in its filter loop instead of returning nil and
nil; `Hidden{Name: "Ann", secret: "s"}` has a non-zero member and `UpdateOne`
panics without a call instead of making one. -/
theorem C7_unexported_member_panics :
    (∀ m ∈ sampleHiddenZero, stringIsZero m.Value = true)
    ∧ Q.UpsertOne sampleDriver stringIsZero samplePromoted sampleQ sampleHiddenZero ["secret"]
        = (.error Panic.unexportedInterface, [])
    ∧ (∃ m ∈ sampleHidden, stringIsZero m.Value = false)
    ∧ Q.UpdateOne sampleDriver stringIsZero sampleQ sampleHidden
        = (.error Panic.unexportedInterface, []) :=
  ⟨by simp [sampleHiddenZero, stringIsZero],
   rfl,
   ⟨⟨"Name", [("bson", "name")], true, false, "Ann"⟩, by simp [sampleHidden], by decide⟩,
   rfl⟩

/-- The zero value `Person{}` makes no call; `Person{Name: "Ann", City: "Oslo"}`
makes one, and the driver's answer is returned. -/
theorem C7_noop_or_single_write_witness :
    ((∀ m ∈ samplePersonZero, stringIsZero m.Value = true)
      ∧ (∀ n ∈ ["Name"], resolvesReadable samplePromoted samplePersonZero n = true)
      ∧ Q.UpdateOne sampleDriver stringIsZero sampleQ samplePersonZero = (.ok (none, none), [])
      ∧ Q.UpsertOne sampleDriver stringIsZero samplePromoted sampleQ samplePersonZero ["Name"]
          = (.ok (none, none), []))
    ∧ ((∃ m ∈ samplePersonValue, stringIsZero m.Value = false)
      ∧ (∀ m ∈ samplePersonValue, stringIsZero m.Value = false → m.Exported = true)
      ∧ (∀ n ∈ ["Name", "City"], resolvesReadable samplePromoted samplePersonValue n = true)
      ∧ (Q.UpdateOne sampleDriver stringIsZero sampleQ samplePersonValue).1
          = .ok (some 1, none)
      ∧ (Q.UpsertOne sampleDriver stringIsZero samplePromoted sampleQ samplePersonValue
            ["Name", "City"]).1
          = .ok (some 2, none)) := by
  have hz : ∀ m ∈ samplePersonZero, stringIsZero m.Value = true := by
    simp [samplePersonZero, stringIsZero]
  have hr0 : ∀ n ∈ ["Name"], resolvesReadable samplePromoted samplePersonZero n = true := by
    decide
  have hn : ∃ m ∈ samplePersonValue, stringIsZero m.Value = false :=
    ⟨⟨"Name", [("bson", "name,omitempty")], true, false, "Ann"⟩,
      by simp [samplePersonValue], by decide⟩
  have hexp : ∀ m ∈ samplePersonValue, stringIsZero m.Value = false → m.Exported = true := by
    simp [samplePersonValue]
  have hr1 : ∀ n ∈ ["Name", "City"],
      resolvesReadable samplePromoted samplePersonValue n = true := by
    decide
  have h0 := (C7_noop_or_single_write sampleDriver stringIsZero samplePromoted sampleQ
    samplePersonZero ["Name"]).1 hz
  have h1 := (C7_noop_or_single_write sampleDriver stringIsZero samplePromoted sampleQ
    samplePersonValue ["Name", "City"]).2 hn hexp
  refine ⟨⟨hz, hr0, h0.1, h0.2 hr0⟩, ⟨hn, hexp, hr1, ?_, ?_⟩⟩
  · rw [h1.1]
    rfl
  · rw [h1.2 hr1]
    rfl

/-- C8 as stated fails: for `Hidden{Name: "Ann", secret: "s"}` and the unique
name "secret", which names a member, `UpsertOne` panics in its filter loop: no
filter is built and nothing is sent. -/
theorem C8_unexported_name_panics :
    Record.FieldByName samplePromoted sampleHidden "secret" = Lookup.field false "s"
    ∧ Q.UpsertOne.filter samplePromoted sampleHidden ["secret"]
        = .error Panic.unexportedInterface
    ∧ Q.UpsertOne sampleDriver stringIsZero samplePromoted sampleQ sampleHidden ["secret"]
        = (.error Panic.unexportedInterface, []) :=
  ⟨rfl, rfl, rfl⟩

/-- For `Doc{Base: Base{ID: "7"}, Name: "Ann"}` and the names "ID", "Missing",
"Name": the promoted `ID` and the direct `Name` give an element each, in this
order, and "Missing" gives none. -/
theorem C8_upsert_filter_from_named_fields_witness :
    (∀ n ∈ ["ID", "Missing", "Name"], resolvesReadable samplePromoted sampleDoc n = true)
    ∧ Q.UpsertOne.updateDoc stringIsZero sampleDoc
        = .ok [("Base", Bson.val "Base(7)"), ("name", Bson.val "Ann")]
    ∧ Q.UpsertOne.filter samplePromoted sampleDoc ["ID", "Missing", "Name"]
        = .ok [("ID", Bson.val "7"), ("Name", Bson.val "Ann")]
    ∧ (Q.UpsertOne sampleDriver stringIsZero samplePromoted sampleQ sampleDoc
          ["ID", "Missing", "Name"]).2
        = [Call.UpdateOne () () [("ID", Bson.val "7"), ("Name", Bson.val "Ann")]
            [("$set", Bson.D [("Base", Bson.val "Base(7)"), ("name", Bson.val "Ann")])]
            [{ Upsert := some true }]] := by
  have hr : ∀ n ∈ ["ID", "Missing", "Name"],
      resolvesReadable samplePromoted sampleDoc n = true := by
    decide
  have hd : Q.UpsertOne.updateDoc stringIsZero sampleDoc
      = .ok [("Base", Bson.val "Base(7)"), ("name", Bson.val "Ann")] := rfl
  have h := (C8_upsert_filter_from_named_fields sampleDriver stringIsZero samplePromoted sampleQ
    sampleDoc ["ID", "Missing", "Name"] []).2 hr
  refine ⟨hr, hd, ?_, ?_⟩
  · rw [h.1]
    rfl
  · rw [h.2 _ hd]
    rfl

/-! ## Field descriptors -/

/-- C10: `f.Eq(v)` is the condition with the field `f.Bson`, the operator "$eq"
and the value `v`; `f.In(vs...)` is the condition with the field `f.Bson`, the
operator "$in" and the sequence `vs` in order; `In` without arguments is the
condition with the empty sequence; the field is `Bson` also when `Name` differs. -/
theorem C10_eq_in_conditions {T : Type} (f : common.Field T) (v : T) (vs : List T) :
    f.Eq v = { Field := f.Bson, Op := "$eq", Value := Iface.value v }
    ∧ f.In vs = { Field := f.Bson, Op := "$in", Value := Iface.slice vs }
    ∧ f.In [] = { Field := f.Bson, Op := "$in", Value := Iface.slice [] }
    ∧ (sampleNameDescriptor.Eq "Ann").Field = "name"
    ∧ (sampleNameDescriptor.In ["Ann", "Bob"]).Value = Iface.slice ["Ann", "Bob"] :=
  ⟨rfl, rfl, rfl, rfl, rfl⟩

/-! ## Name casing -/

theorem toLowerCamelCaseLoop_tail (U : UnicodeTables) (words : List String) (i : Nat)
    (result : String) (hi : i ≠ 0) :
    toLowerCamelCaseLoop U words i result
      = result ++ concatAll (words.map (toTitleCase U)) := by
  induction words generalizing i result with
  | nil => simp [toLowerCamelCaseLoop, concatAll]
  | cons w ws ih =>
    rw [toLowerCamelCaseLoop, if_neg hi, ih (i + 1) _ (Nat.succ_ne_zero i)]
    simp [concatAll, String.append_assoc]

theorem strings_Join_empty (l : List String) : strings_Join l "" = concatAll l := by
  induction l with
  | nil => rfl
  | cons a rest ih =>
    cases rest with
    | nil => simp [strings_Join, concatAll]
    | cons b rest2 =>
      rw [strings_Join, ih]
      simp [concatAll]

theorem concatAll_skip_empty (U : UnicodeTables) (l : List String) :
    concatAll (l.map (fun word => if word = "" then "" else toTitleCase U word))
      = concatAll ((l.filter (fun word => word ≠ "")).map (toTitleCase U)) := by
  induction l with
  | nil => rfl
  | cons w ws ih =>
    by_cases h : w = ""
    · simp [h, concatAll, ih]
    · simp [h, concatAll, ih]

theorem toTitleCaseLoop_eq (U : UnicodeTables) (l wordBuf : List Char) (up : Bool) :
    toTitleCaseLoop U l wordBuf up = wordBuf ++ titleFrom U up l := by
  induction l generalizing wordBuf up with
  | nil => simp [toTitleCaseLoop, titleFrom]
  | cons r str ih =>
    rw [toTitleCaseLoop, titleFrom]
    by_cases hl : U.IsLetter r = true
    · cases up with
      | true => simp [hl, ih]
      | false => simp [hl, ih]
    · simp [hl, ih]

theorem titleFrom_length (U : UnicodeTables) (l : List Char) (up : Bool) :
    (titleFrom U up l).length = l.length := by
  induction l generalizing up with
  | nil => simp [titleFrom]
  | cons r str ih => simp [titleFrom, ih]

theorem titleFrom_getElem? (U : UnicodeTables) (l : List Char) (up : Bool) (i : Nat) :
    (titleFrom U up l)[i]?
      = (l[i]?).map (fun c =>
          if U.IsLetter c then (if letterBefore U (!up) l i then U.ToLower c else U.ToUpper c)
          else c) := by
  induction l generalizing up i with
  | nil => simp [titleFrom]
  | cons r str ih =>
    cases i with
    | zero =>
      cases up <;> simp [titleFrom, letterBefore]
    | succ j =>
      rw [titleFrom, List.getElem?_cons_succ, List.getElem?_cons_succ, ih]
      have hb : letterBefore U (!!U.IsLetter r) str j = letterBefore U (!up) (r :: str) (j + 1) := by
        cases j with
        | zero => simp [letterBefore]
        | succ k => simp [letterBefore]
      rw [hb]

/-- C12: `toLowerCamelCase s` is the first underscore-separated segment of `s`
with every code point lower-cased, followed by the title case of each later
segment, without separator; on "user_id" it gives "userId". -/
theorem C12_lower_camel_case (U : UnicodeTables) (s : String) :
    toLowerCamelCase U s
        = strings_ToLower U ((strings_Split s '_').headD "")
          ++ concatAll ((strings_Split s '_').tail.map (toTitleCase U))
    ∧ toLowerCamelCase asciiTables "user_id" = "userId" := by
  refine ⟨?_, by decide⟩
  unfold toLowerCamelCase
  cases h : strings_Split s '_' with
  | nil => exact absurd h (splitAux_ne_nil '_' s.data [])
  | cons w ws =>
    rw [toLowerCamelCaseLoop, if_pos rfl, toLowerCamelCaseLoop_tail U ws 1 _ (by decide)]
    rfl

/-- C13: `toUpperCamelCase s` is the concatenation of the title case of each
non-empty underscore-separated segment of `s`, in order; on "user_id" it gives
"UserId", on the empty string the empty string, and the empty segments of
"__user__id_" give nothing. -/
theorem C13_upper_camel_case (U : UnicodeTables) (s : String) :
    toUpperCamelCase U s
        = concatAll (((strings_Split s '_').filter (fun word => word ≠ "")).map (toTitleCase U))
    ∧ toUpperCamelCase asciiTables "user_id" = "UserId"
    ∧ toUpperCamelCase asciiTables "" = ""
    ∧ toUpperCamelCase asciiTables "__user__id_" = "UserId" := by
  refine ⟨?_, by decide, by decide, by decide⟩
  unfold toUpperCamelCase
  simp only []
  rw [strings_Join_empty, concatAll_skip_empty]

/-- C14: `toTitleCase w` has as many code points as `w`, and its code point at
position `i` is that of `w` when that is not a letter, its upper case when it is
a letter and `i` is 0 or the code point of `w` at `i - 1` is not a letter, and
its lower case when it is a letter and the code point of `w` at `i - 1` is a
letter. -/
theorem C14_title_case (U : UnicodeTables) (w : String) :
    (toTitleCase U w).data.length = w.data.length
    ∧ (∀ i : Nat, (toTitleCase U w).data[i]?
        = (w.data[i]?).map (fun c =>
            if U.IsLetter c then
              (if letterBefore U false w.data i then U.ToLower c else U.ToUpper c)
            else c))
    ∧ toTitleCase asciiTables "hELLO9wORLD x" = "Hello9World X" := by
  refine ⟨?_, ?_, by decide⟩
  · simp [toTitleCase, toTitleCaseLoop_eq, titleFrom_length]
  · intro i
    simp only [toTitleCase, toTitleCaseLoop_eq, List.nil_append]
    rw [titleFrom_getElem?]
    rfl

/-! ## The condition list of the builder -/

/-- C11: `Where(cs...)` leaves the condition list equal to the former list
followed by `cs`, so the former list is an initial part of it, and keeps handle
and context; `Collection` and `WithContext` keep the condition list and change
only the collection handle and only the context. Each returns the receiver, here
the builder after the call. -/
theorem C11_condition_list_append_only {Coll Ctx V : Type} (q : Q Coll Ctx V)
    (cs : List (QueryCondition V)) (collection : Coll) (ctx : Ctx) :
    ((Q.Where q cs).filter = q.filter ++ cs
      ∧ (Q.Where q cs).filter.take q.filter.length = q.filter
      ∧ (Q.Where q cs).collection = q.collection
      ∧ (Q.Where q cs).ctx = q.ctx)
    ∧ ((Q.Collection q collection).filter = q.filter
      ∧ (Q.Collection q collection).collection = collection
      ∧ (Q.Collection q collection).ctx = q.ctx)
    ∧ ((Q.WithContext q ctx).filter = q.filter
      ∧ (Q.WithContext q ctx).ctx = ctx
      ∧ (Q.WithContext q ctx).collection = q.collection) := by
  refine ⟨⟨rfl, ?_, rfl, rfl⟩, ⟨rfl, rfl, rfl⟩, ⟨rfl, rfl, rfl⟩⟩
  simp [Q.Where]

/-! ## Failure of the introspection -/

theorem parseStruct_not_struct (U : UnicodeTables) (s : gen) (typ : RType)
    (h : typ.Kind ≠ Kind.Struct) :
    gen.parseStruct U s typ = (some "input is not a struct pointer", s) := by
  unfold gen.parseStruct
  rw [if_pos h]

/-- C15, at an input of type `*User`: `parseStruct` fails and leaves the generator
as it was, and the message of its error is "input is not a struct pointer", not
"input is not a struct". -/
theorem C15_error_message_names_pointer :
    samplePointer.Kind = Kind.Pointer
    ∧ gen.parseStruct asciiTables sampleGen samplePointer
        = (some "input is not a struct pointer", sampleGen)
    ∧ (gen.parseStruct asciiTables sampleGen samplePointer).1 ≠ some "input is not a struct" := by
  decide

/-! ## Gen -/

section GenClaims

variable {σ F E : Type}

theorem Gen_eq (os : Os σ F E) (U : UnicodeTables) (typ : RType) (path : String) (w : σ) :
    Gen os U typ path w
      = match (Gen.parsed U typ path).1 with
        | some err => (some (GoError.Errorf err), w, [])
        | none =>
          match (Gen.dao os U typ path w).err with
          | some err =>
            (some (GoError.os err), (Gen.dao os U typ path w).os, (Gen.dao os U typ path w).calls)
          | none =>
            ((Gen.model os U typ path w).err.map GoError.os, (Gen.model os U typ path w).os,
              (Gen.dao os U typ path w).calls ++ (Gen.model os U typ path w).calls) := by
  unfold Gen Gen.model Gen.dao Gen.parsed
  simp only []
  rcases hp : gen.parseStruct U
      (gen.SetBasePath { basePath := "", objectName := "", fields := [] } path) typ with ⟨_ | e, g⟩
  · simp only []
    rcases hd : (gen.genDao os U g w).err with _ | e
    · simp only []
      rcases hm : (gen.genModel os U (gen.genDao os U g w).s (gen.genDao os U g w).os).err
        with _ | e <;> simp
    · simp
  · simp

theorem genDaoCode_basePath (U : UnicodeTables) (s : gen) :
    (if s.basePath = "" then { s with basePath := "dist" } else s).genDaoCode U
      = s.genDaoCode U := by
  split <;> rfl

theorem genModelCode_basePath (U : UnicodeTables) (s : gen) :
    (if s.basePath = "" then { s with basePath := "dist" } else s).genModelCode U
      = s.genModelCode U := by
  split <;> rfl

theorem genDao_s (os : Os σ F E) (U : UnicodeTables) (s : gen) (w : σ) :
    (gen.genDao os U s w).s = if s.basePath = "" then { s with basePath := "dist" } else s := by
  unfold gen.genDao
  simp only []
  split
  · rfl
  · split <;> rfl

theorem parsed_basePath (U : UnicodeTables) (typ : RType) (path : String) :
    (Gen.parsed U typ path).2.basePath = path := by
  unfold Gen.parsed gen.parseStruct gen.SetBasePath
  split
  · rfl
  · split <;> rfl

theorem genDao_steps (os : Os σ F E) (U : UnicodeTables) (s : gen) (w : σ) :
    gen.genDao os U s w
      = match os.MkdirAll w (os.Join (if s.basePath = "" then "dist" else s.basePath) "dao")
          0o755 with
        | (w1, some err) =>
          ⟨some err, if s.basePath = "" then { s with basePath := "dist" } else s, w1,
            [OsCall.MkdirAll (os.Join (if s.basePath = "" then "dist" else s.basePath) "dao")
              0o755]⟩
        | (w1, none) =>
          match os.Create w1
              (os.Join (os.Join (if s.basePath = "" then "dist" else s.basePath) "dao")
                (toLowerCamelCase U s.objectName ++ ".go")) with
          | (w2, _, some err) =>
            ⟨some err, if s.basePath = "" then { s with basePath := "dist" } else s, w2,
              [OsCall.MkdirAll (os.Join (if s.basePath = "" then "dist" else s.basePath) "dao")
                0o755,
               OsCall.Create
                (os.Join (os.Join (if s.basePath = "" then "dist" else s.basePath) "dao")
                  (toLowerCamelCase U s.objectName ++ ".go"))]⟩
          | (w2, f, none) =>
            ⟨(os.WriteString w2 f (s.genDaoCode U)).2,
              if s.basePath = "" then { s with basePath := "dist" } else s,
              os.Close (os.WriteString w2 f (s.genDaoCode U)).1 f,
              [OsCall.MkdirAll (os.Join (if s.basePath = "" then "dist" else s.basePath) "dao")
                0o755,
               OsCall.Create
                (os.Join (os.Join (if s.basePath = "" then "dist" else s.basePath) "dao")
                  (toLowerCamelCase U s.objectName ++ ".go")),
               OsCall.WriteString f (s.genDaoCode U), OsCall.Close f]⟩ := by
  have hb : (if s.basePath = "" then { s with basePath := "dist" } else s).basePath
      = if s.basePath = "" then "dist" else s.basePath := by
    split <;> rfl
  have ho : (if s.basePath = "" then { s with basePath := "dist" } else s).objectName
      = s.objectName := by
    split <;> rfl
  unfold gen.genDao
  simp only []
  rw [genDaoCode_basePath, hb, ho]

theorem genModel_steps (os : Os σ F E) (U : UnicodeTables) (s : gen) (w : σ) :
    gen.genModel os U s w
      = match os.MkdirAll w (os.Join (if s.basePath = "" then "dist" else s.basePath) "model")
          0o755 with
        | (w1, some err) =>
          ⟨some err, if s.basePath = "" then { s with basePath := "dist" } else s, w1,
            [OsCall.MkdirAll (os.Join (if s.basePath = "" then "dist" else s.basePath) "model")
              0o755]⟩
        | (w1, none) =>
          match os.Create w1
              (os.Join (os.Join (if s.basePath = "" then "dist" else s.basePath) "model")
                (toLowerCamelCase U s.objectName ++ ".go")) with
          | (w2, _, some err) =>
            ⟨some err, if s.basePath = "" then { s with basePath := "dist" } else s, w2,
              [OsCall.MkdirAll
                (os.Join (if s.basePath = "" then "dist" else s.basePath) "model") 0o755,
               OsCall.Create
                (os.Join (os.Join (if s.basePath = "" then "dist" else s.basePath) "model")
                  (toLowerCamelCase U s.objectName ++ ".go"))]⟩
          | (w2, f, none) =>
            ⟨(os.WriteString w2 f (s.genModelCode U)).2,
              if s.basePath = "" then { s with basePath := "dist" } else s,
              os.Close (os.WriteString w2 f (s.genModelCode U)).1 f,
              [OsCall.MkdirAll
                (os.Join (if s.basePath = "" then "dist" else s.basePath) "model") 0o755,
               OsCall.Create
                (os.Join (os.Join (if s.basePath = "" then "dist" else s.basePath) "model")
                  (toLowerCamelCase U s.objectName ++ ".go")),
               OsCall.WriteString f (s.genModelCode U), OsCall.Close f]⟩ := by
  have hb : (if s.basePath = "" then { s with basePath := "dist" } else s).basePath
      = if s.basePath = "" then "dist" else s.basePath := by
    split <;> rfl
  have ho : (if s.basePath = "" then { s with basePath := "dist" } else s).objectName
      = s.objectName := by
    split <;> rfl
  unfold gen.genModel
  simp only []
  rw [genModelCode_basePath, hb, ho]

theorem base_ne_empty (path : String) : (if path = "" then "dist" else path) ≠ "" := by
  split
  · decide
  · assumption

theorem Gen_steps (os : Os σ F E) (U : UnicodeTables) (typ : RType) (path : String) (w : σ) :
    Gen os U typ path w
      = match (Gen.parsed U typ path).1 with
        | some err => (some (GoError.Errorf err), w, [])
        | none =>
          match (Gen.daoMkdir os path w).2 with
          | some err =>
            (some (GoError.os err), (Gen.daoMkdir os path w).1,
              [OsCall.MkdirAll (Gen.daoDir os path) 0o755])
          | none =>
            match (Gen.daoCreate os U typ path w).2.2 with
            | some err =>
              (some (GoError.os err), (Gen.daoCreate os U typ path w).1,
                [OsCall.MkdirAll (Gen.daoDir os path) 0o755,
                 OsCall.Create (Gen.daoFile os U typ path)])
            | none =>
              match (Gen.daoWrite os U typ path w).2 with
              | some err =>
                (some (GoError.os err), Gen.daoClosed os U typ path w,
                  Gen.daoCalls os U typ path w)
              | none =>
                match (Gen.modelMkdir os U typ path w).2 with
                | some err =>
                  (some (GoError.os err), (Gen.modelMkdir os U typ path w).1,
                    Gen.daoCalls os U typ path w
                      ++ [OsCall.MkdirAll (Gen.modelDir os path) 0o755])
                | none =>
                  match (Gen.modelCreate os U typ path w).2.2 with
                  | some err =>
                    (some (GoError.os err), (Gen.modelCreate os U typ path w).1,
                      Gen.daoCalls os U typ path w
                        ++ [OsCall.MkdirAll (Gen.modelDir os path) 0o755,
                            OsCall.Create (Gen.modelFile os U typ path)])
                  | none =>
                    ((Gen.modelWrite os U typ path w).2.map GoError.os,
                      Gen.modelClosed os U typ path w,
                      Gen.daoCalls os U typ path w ++ Gen.modelCalls os U typ path w) := by
  rw [Gen_eq]
  rcases hp : (Gen.parsed U typ path).1 with _ | e
  swap
  · rfl
  simp only []
  have hbase : (if (if path = "" then "dist" else path) = "" then "dist"
      else (if path = "" then "dist" else path)) = (if path = "" then "dist" else path) :=
    if_neg (base_ne_empty path)
  have hs : ∀ s : gen, s.basePath = path →
      (if s.basePath = "" then { s with basePath := "dist" } else s).basePath
        = (if path = "" then "dist" else path) := by
    intro s h
    rw [← h]
    split <;> rfl
  have ho : ∀ s : gen,
      (if s.basePath = "" then { s with basePath := "dist" } else s).objectName
        = s.objectName := by
    intro s
    split <;> rfl
  have hD := genDao_steps os U (Gen.parsed U typ path).2 w
  rw [parsed_basePath] at hD
  unfold Gen.model
  rw [genModel_steps]
  unfold Gen.dao
  rw [genDao_s, hs _ (parsed_basePath U typ path), ho, hbase, genModelCode_basePath, hD]
  unfold Gen.modelClosed Gen.modelCalls Gen.modelWrite Gen.modelCreate Gen.modelMkdir
    Gen.daoClosed Gen.daoCalls Gen.daoWrite Gen.daoCreate Gen.daoMkdir Gen.modelFile
    Gen.modelDir Gen.daoFile Gen.daoDir
  rcases h1 : os.MkdirAll w (os.Join (if path = "" then "dist" else path) "dao") 0o755
    with ⟨w1, _ | e1⟩
  swap
  · rfl
  simp only []
  rcases h2 : os.Create w1 (os.Join (os.Join (if path = "" then "dist" else path) "dao")
      (toLowerCamelCase U (Gen.parsed U typ path).2.objectName ++ ".go")) with ⟨w2, f, _ | e2⟩
  swap
  · rfl
  simp only []
  rcases h3 : os.WriteString w2 f ((Gen.parsed U typ path).2.genDaoCode U) with ⟨w3, _ | e3⟩
  swap
  · rfl
  simp only []
  rcases h4 : os.MkdirAll (os.Close w3 f) (os.Join (if path = "" then "dist" else path) "model")
      0o755 with ⟨w4, _ | e4⟩
  swap
  · rfl
  simp only []
  rcases h5 : os.Create w4 (os.Join (os.Join (if path = "" then "dist" else path) "model")
      (toLowerCamelCase U (Gen.parsed U typ path).2.objectName ++ ".go")) with ⟨w5, g, _ | e5⟩
  swap
  · rfl
  rfl

/-- C16: `Gen` runs the introspection, the DAO emission and the Model emission
in this order and stops at the first failure, returning its error: after a
failed introspection no call is made on the operating system; when making the
DAO directory, creating the DAO file or writing it fails, that error is returned
and no call of the Model emission is made; after a DAO emission that succeeded
the Model emission follows and stops at its first failing call; `Gen` returns
nil exactly when the introspection and all six calls succeed. -/
theorem C16_gen_stops_at_first_failure (os : Os σ F E) (U : UnicodeTables) (typ : RType)
    (path : String) (w : σ) :
    (∀ e, (Gen.parsed U typ path).1 = some e →
        Gen os U typ path w = (some (GoError.Errorf e), w, []))
    ∧ ((Gen.parsed U typ path).1 = none → ∀ e, (Gen.daoMkdir os path w).2 = some e →
        Gen os U typ path w
          = (some (GoError.os e), (Gen.daoMkdir os path w).1,
              [OsCall.MkdirAll (Gen.daoDir os path) 0o755]))
    ∧ ((Gen.parsed U typ path).1 = none → (Gen.daoMkdir os path w).2 = none →
        ∀ e, (Gen.daoCreate os U typ path w).2.2 = some e →
        Gen os U typ path w
          = (some (GoError.os e), (Gen.daoCreate os U typ path w).1,
              [OsCall.MkdirAll (Gen.daoDir os path) 0o755,
               OsCall.Create (Gen.daoFile os U typ path)]))
    ∧ ((Gen.parsed U typ path).1 = none → (Gen.daoMkdir os path w).2 = none →
        (Gen.daoCreate os U typ path w).2.2 = none →
        ∀ e, (Gen.daoWrite os U typ path w).2 = some e →
        Gen os U typ path w
          = (some (GoError.os e), Gen.daoClosed os U typ path w, Gen.daoCalls os U typ path w))
    ∧ ((Gen.parsed U typ path).1 = none → (Gen.daoMkdir os path w).2 = none →
        (Gen.daoCreate os U typ path w).2.2 = none → (Gen.daoWrite os U typ path w).2 = none →
        ∀ e, (Gen.modelMkdir os U typ path w).2 = some e →
        Gen os U typ path w
          = (some (GoError.os e), (Gen.modelMkdir os U typ path w).1,
              Gen.daoCalls os U typ path w ++ [OsCall.MkdirAll (Gen.modelDir os path) 0o755]))
    ∧ ((Gen.parsed U typ path).1 = none → (Gen.daoMkdir os path w).2 = none →
        (Gen.daoCreate os U typ path w).2.2 = none → (Gen.daoWrite os U typ path w).2 = none →
        (Gen.modelMkdir os U typ path w).2 = none →
        ∀ e, (Gen.modelCreate os U typ path w).2.2 = some e →
        Gen os U typ path w
          = (some (GoError.os e), (Gen.modelCreate os U typ path w).1,
              Gen.daoCalls os U typ path w
                ++ [OsCall.MkdirAll (Gen.modelDir os path) 0o755,
                    OsCall.Create (Gen.modelFile os U typ path)]))
    ∧ ((Gen.parsed U typ path).1 = none → (Gen.daoMkdir os path w).2 = none →
        (Gen.daoCreate os U typ path w).2.2 = none → (Gen.daoWrite os U typ path w).2 = none →
        (Gen.modelMkdir os U typ path w).2 = none →
        (Gen.modelCreate os U typ path w).2.2 = none →
        Gen os U typ path w
          = ((Gen.modelWrite os U typ path w).2.map GoError.os, Gen.modelClosed os U typ path w,
              Gen.daoCalls os U typ path w ++ Gen.modelCalls os U typ path w))
    ∧ ((Gen os U typ path w).1 = none
        ↔ (Gen.parsed U typ path).1 = none ∧ (Gen.daoMkdir os path w).2 = none
          ∧ (Gen.daoCreate os U typ path w).2.2 = none
          ∧ (Gen.daoWrite os U typ path w).2 = none
          ∧ (Gen.modelMkdir os U typ path w).2 = none
          ∧ (Gen.modelCreate os U typ path w).2.2 = none
          ∧ (Gen.modelWrite os U typ path w).2 = none) := by
  rw [Gen_steps]
  refine ⟨?_, ?_, ?_, ?_, ?_, ?_, ?_, ?_⟩
  · intro e he
    rw [he]
  · intro hp e h1
    rw [hp, h1]
  · intro hp h1 e h2
    rw [hp, h1, h2]
  · intro hp h1 h2 e h3
    rw [hp, h1, h2, h3]
  · intro hp h1 h2 h3 e h4
    rw [hp, h1, h2, h3, h4]
  · intro hp h1 h2 h3 h4 e h5
    rw [hp, h1, h2, h3, h4, h5]
  · intro hp h1 h2 h3 h4 h5
    rw [hp, h1, h2, h3, h4, h5]
  · rcases hp : (Gen.parsed U typ path).1 with _ | e
    swap
    · simp
    rcases h1 : (Gen.daoMkdir os path w).2 with _ | e
    swap
    · simp
    rcases h2 : (Gen.daoCreate os U typ path w).2.2 with _ | e
    swap
    · simp
    rcases h3 : (Gen.daoWrite os U typ path w).2 with _ | e
    swap
    · simp
    rcases h4 : (Gen.modelMkdir os U typ path w).2 with _ | e
    swap
    · simp
    rcases h5 : (Gen.modelCreate os U typ path w).2.2 with _ | e
    swap
    · simp
    simp

/-- C17 as amended: in `Gen` each file is written by a single write that carries
the whole text of its artifact, the DAO file first. When `Gen` returns an error
from the introspection, or from making the DAO directory or creating the DAO
file, nothing has been written; when the error comes from the DAO write, that
failed write is the only one; when it comes from making the Model directory or
creating the Model file, the DAO file has been written in full and stays, and
nothing has been written for the Model; when both files have been created, the
DAO text and then the Model text are written, and the outcome of the Model write
is returned. -/
theorem C17_each_file_written_after_its_rendering (os : Os σ F E) (U : UnicodeTables)
    (typ : RType) (path : String) (w : σ) :
    ((Gen.parsed U typ path).1 ≠ none →
        (Gen os U typ path w).1 ≠ none ∧ (Gen os U typ path w).2.2 = [])
    ∧ ((Gen.parsed U typ path).1 = none →
        ((Gen.daoMkdir os path w).2 ≠ none
          ∨ ((Gen.daoMkdir os path w).2 = none ∧ (Gen.daoCreate os U typ path w).2.2 ≠ none)) →
        (Gen os U typ path w).1 ≠ none ∧ writes (Gen os U typ path w).2.2 = [])
    ∧ ((Gen.parsed U typ path).1 = none → (Gen.daoMkdir os path w).2 = none →
        (Gen.daoCreate os U typ path w).2.2 = none → (Gen.daoWrite os U typ path w).2 ≠ none →
        (Gen os U typ path w).1 ≠ none
        ∧ writes (Gen os U typ path w).2.2
            = [((Gen.daoCreate os U typ path w).2.1, (Gen.parsed U typ path).2.genDaoCode U)])
    ∧ ((Gen.parsed U typ path).1 = none → (Gen.daoMkdir os path w).2 = none →
        (Gen.daoCreate os U typ path w).2.2 = none → (Gen.daoWrite os U typ path w).2 = none →
        ((Gen.modelMkdir os U typ path w).2 ≠ none
          ∨ ((Gen.modelMkdir os U typ path w).2 = none
              ∧ (Gen.modelCreate os U typ path w).2.2 ≠ none)) →
        (Gen os U typ path w).1 ≠ none
        ∧ writes (Gen os U typ path w).2.2
            = [((Gen.daoCreate os U typ path w).2.1, (Gen.parsed U typ path).2.genDaoCode U)])
    ∧ ((Gen.parsed U typ path).1 = none → (Gen.daoMkdir os path w).2 = none →
        (Gen.daoCreate os U typ path w).2.2 = none → (Gen.daoWrite os U typ path w).2 = none →
        (Gen.modelMkdir os U typ path w).2 = none →
        (Gen.modelCreate os U typ path w).2.2 = none →
        (Gen os U typ path w).1 = (Gen.modelWrite os U typ path w).2.map GoError.os
        ∧ writes (Gen os U typ path w).2.2
            = [((Gen.daoCreate os U typ path w).2.1, (Gen.parsed U typ path).2.genDaoCode U),
               ((Gen.modelCreate os U typ path w).2.1,
                 (Gen.parsed U typ path).2.genModelCode U)]) := by
  rw [Gen_steps]
  refine ⟨?_, ?_, ?_, ?_, ?_⟩
  · intro hp
    rcases hq : (Gen.parsed U typ path).1 with _ | e
    · exact absurd hq hp
    · simp
  · intro hp h
    rw [hp]
    rcases h1 : (Gen.daoMkdir os path w).2 with _ | e
    · rcases h with h | ⟨_, h⟩
      · exact absurd h1 h
      · rcases h2 : (Gen.daoCreate os U typ path w).2.2 with _ | e
        · exact absurd h2 h
        · simp [writes]
    · simp [writes]
  · intro hp h1 h2 h3
    rw [hp, h1, h2]
    rcases h3' : (Gen.daoWrite os U typ path w).2 with _ | e
    · exact absurd h3' h3
    · simp [writes, Gen.daoCalls]
  · intro hp h1 h2 h3 h
    rw [hp, h1, h2, h3]
    rcases h4 : (Gen.modelMkdir os U typ path w).2 with _ | e
    · rcases h with h | ⟨_, h⟩
      · exact absurd h4 h
      · rcases h5 : (Gen.modelCreate os U typ path w).2.2 with _ | e
        · exact absurd h5 h
        · simp [writes, Gen.daoCalls]
    · simp [writes, Gen.daoCalls]
  · intro hp h1 h2 h3 h4 h5
    rw [hp, h1, h2, h3, h4, h5]
    simp [writes, Gen.daoCalls, Gen.modelCalls]

end GenClaims

/-- A pointer input stops `Gen` before any call; a failure of each of the six
calls stops it at that call: the DAO steps leave no call of the Model emission,
and the Model steps come after the four calls on the DAO file. -/
theorem C16_gen_stops_at_first_failure_witness :
    ((Gen.parsed asciiTables samplePointer "out").1 = some "input is not a struct pointer"
      ∧ Gen (sampleOsFailing "" "" "") asciiTables samplePointer "out" ()
          = (some (GoError.Errorf "input is not a struct pointer"), (), []))
    ∧ (Gen (sampleOsFailing "out/dao" "" "") asciiTables sampleAccount "out" ()).2.2
        = [OsCall.MkdirAll "out/dao" 0o755]
    ∧ Gen (sampleOsFailing "" "out/dao/account.go" "") asciiTables sampleAccount "out" ()
        = (some (GoError.os "create failed"), (),
            [OsCall.MkdirAll "out/dao" 0o755, OsCall.Create "out/dao/account.go"])
    ∧ ((Gen (sampleOsFailing "" "" "out/dao/account.go") asciiTables sampleAccount "out" ()).1
          = some (GoError.os "write failed")
      ∧ (Gen (sampleOsFailing "" "" "out/dao/account.go") asciiTables sampleAccount "out"
          ()).2.2.length = 4)
    ∧ (Gen (sampleOsFailing "out/model" "" "") asciiTables sampleAccount "out" ()).2.2.length = 5
    ∧ (Gen (sampleOsFailing "" "out/model/account.go" "") asciiTables sampleAccount "out"
        ()).2.2.length = 6
    ∧ ((Gen (sampleOsFailing "" "" "out/model/account.go") asciiTables sampleAccount "out" ()).1
          = some (GoError.os "write failed")
      ∧ (Gen (sampleOsFailing "" "" "out/model/account.go") asciiTables sampleAccount "out"
          ()).2.2.length = 8) := by
  have hp : (Gen.parsed asciiTables samplePointer "out").1
      = some "input is not a struct pointer" := by decide
  have ha : (Gen.parsed asciiTables sampleAccount "out").1 = none := by decide
  have h0 := (C16_gen_stops_at_first_failure (sampleOsFailing "" "" "") asciiTables samplePointer
    "out" ()).1 "input is not a struct pointer" hp
  have h1 := (C16_gen_stops_at_first_failure (sampleOsFailing "out/dao" "" "") asciiTables
    sampleAccount "out" ()).2.1 ha "mkdir failed" (by decide)
  have h2 := (C16_gen_stops_at_first_failure (sampleOsFailing "" "out/dao/account.go" "")
    asciiTables sampleAccount "out" ()).2.2.1 ha (by decide) "create failed" (by decide)
  have h3 := (C16_gen_stops_at_first_failure (sampleOsFailing "" "" "out/dao/account.go")
    asciiTables sampleAccount "out" ()).2.2.2.1 ha (by decide) (by decide) "write failed"
    (by decide)
  have h4 := (C16_gen_stops_at_first_failure (sampleOsFailing "out/model" "" "") asciiTables
    sampleAccount "out" ()).2.2.2.2.1 ha (by decide) (by decide) (by decide) "mkdir failed"
    (by decide)
  have h5 := (C16_gen_stops_at_first_failure (sampleOsFailing "" "out/model/account.go" "")
    asciiTables sampleAccount "out" ()).2.2.2.2.2.1 ha (by decide) (by decide) (by decide)
    (by decide) "create failed" (by decide)
  have h6 := (C16_gen_stops_at_first_failure (sampleOsFailing "" "" "out/model/account.go")
    asciiTables sampleAccount "out" ()).2.2.2.2.2.2.1 ha (by decide) (by decide) (by decide)
    (by decide) (by decide)
  refine ⟨⟨hp, h0⟩, ?_, ?_, ⟨?_, ?_⟩, ?_, ?_, ⟨?_, ?_⟩⟩
  · rw [h1]
    decide
  · rw [h2]
    decide
  · rw [h3]
  · rw [h3]
    rfl
  · rw [h4]
    rfl
  · rw [h5]
    rfl
  · rw [h6]
    decide
  · rw [h6]
    rfl

/-- C17 as stated fails: when the Model directory cannot be made, `Gen` returns
an error although it has created, written and closed the DAO file. -/
theorem C17_dao_file_written_when_gen_fails :
    (Gen (sampleOs "out/model") asciiTables sampleAccount "out" ()).1
        = some (GoError.os "permission denied")
    ∧ writesFile (Gen (sampleOs "out/model") asciiTables sampleAccount "out" ()).2.2 = true
    ∧ (Gen (sampleOs "out/model") asciiTables sampleAccount "out" ()).2.2
        = [OsCall.MkdirAll "out/dao" 0o755,
           OsCall.Create "out/dao/account.go",
           OsCall.WriteString "out/dao/account.go"
             "\npackage dao\n\nimport (\n\t\"gen/common\"\n\t\"model\"\n)\n\ntype account struct \x7b\n\tcommon.Q[model.Account]\n\x7d\nvar Account = &account\x7b\x7d\n\nfunc (q *account) ID() common.Field[int] \x7b\n\treturn common.Field[int]\x7bName: \"ID\",Bson: \"_id\"\x7d\n\x7d",
           OsCall.Close "out/dao/account.go",
           OsCall.MkdirAll "out/model" 0o755] := by
  decide

/-- A pointer input and a DAO file that cannot be created leave nothing written;
a failed DAO write is the only write; a Model directory that cannot be made
leaves the DAO file written; with both files created the two texts are written,
the DAO text first. -/
theorem C17_each_file_written_after_its_rendering_witness :
    (Gen (sampleOsFailing "" "" "") asciiTables samplePointer "out" ()).2.2 = []
    ∧ writes (Gen (sampleOsFailing "" "out/dao/account.go" "") asciiTables sampleAccount "out"
        ()).2.2 = []
    ∧ (writes (Gen (sampleOsFailing "" "" "out/dao/account.go") asciiTables sampleAccount "out"
        ()).2.2).map (fun x => x.1) = ["out/dao/account.go"]
    ∧ ((Gen (sampleOsFailing "out/model" "" "") asciiTables sampleAccount "out" ()).1 ≠ none
      ∧ (writes (Gen (sampleOsFailing "out/model" "" "") asciiTables sampleAccount "out"
          ()).2.2).map (fun x => x.1) = ["out/dao/account.go"])
    ∧ ((Gen (sampleOsFailing "" "" "") asciiTables sampleAccount "out" ()).1 = none
      ∧ (writes (Gen (sampleOsFailing "" "" "") asciiTables sampleAccount "out" ()).2.2).map
          (fun x => x.1) = ["out/dao/account.go", "out/model/account.go"]) := by
  have ha : (Gen.parsed asciiTables sampleAccount "out").1 = none := by decide
  have h0 := (C17_each_file_written_after_its_rendering (sampleOsFailing "" "" "") asciiTables
    samplePointer "out" ()).1 (by decide)
  have h1 := (C17_each_file_written_after_its_rendering
    (sampleOsFailing "" "out/dao/account.go" "") asciiTables sampleAccount "out" ()).2.1 ha
    (Or.inr ⟨by decide, by decide⟩)
  have h2 := (C17_each_file_written_after_its_rendering
    (sampleOsFailing "" "" "out/dao/account.go") asciiTables sampleAccount "out" ()).2.2.1 ha
    (by decide) (by decide) (by decide)
  have h3 := (C17_each_file_written_after_its_rendering (sampleOsFailing "out/model" "" "")
    asciiTables sampleAccount "out" ()).2.2.2.1 ha (by decide) (by decide) (by decide)
    (Or.inl (by decide))
  have h4 := (C17_each_file_written_after_its_rendering (sampleOsFailing "" "" "") asciiTables
    sampleAccount "out" ()).2.2.2.2 ha (by decide) (by decide) (by decide) (by decide)
    (by decide)
  refine ⟨h0.2, h1.2, ?_, ⟨h3.1, ?_⟩, ⟨?_, ?_⟩⟩
  · rw [h2.2]
    rfl
  · rw [h3.2]
    rfl
  · rw [h4.1]
    rfl
  · rw [h4.2]
    rfl

/-! ## The DAO artifact -/

theorem foldl_append_concatAll {α : Type} (g : α → String) (l : List α) (init : String) :
    l.foldl (fun code x => code ++ g x) init = init ++ concatAll (l.map g) := by
  induction l generalizing init with
  | nil => simp [concatAll]
  | cons x xs ih => simp [ih, concatAll, String.append_assoc]

/-- C18: the DAO artifact is the header that declares the receiver type named
`toLowerCamelCase e`, followed by one accessor per field in list order, each
named after the field's declared name, with the return type `common.Field` of
the field's type and the literal of the declared name and the serialization key;
for the fields `ID` and `Name` with the keys "id" and "name" it has the
accessors `ID()` and `Name()` returning these keys. -/
theorem C18_dao_accessors (U : UnicodeTables) (s : gen) :
    s.genDaoCode U
        = daoHeader U s.objectName ++ concatAll (s.fields.map (daoAccessor U s.objectName))
    ∧ (s.fields.map (daoAccessor U s.objectName)).length = s.fields.length
    ∧ (gen.parseStruct asciiTables sampleGen sampleEntity).2.fields
        = [{ Name := "ID", Bson := "id", Type_ := "int" },
           { Name := "Name", Bson := "name", Type_ := "string" }]
    ∧ (gen.parseStruct asciiTables sampleGen sampleEntity).2.genDaoCode asciiTables
        = "\npackage dao\n\nimport (\n\t\"gen/common\"\n\t\"model\"\n)\n\ntype entity struct \x7b\n\tcommon.Q[model.Entity]\n\x7d\nvar Entity = &entity\x7b\x7d\n\nfunc (q *entity) ID() common.Field[int] \x7b\n\treturn common.Field[int]\x7bName: \"ID\",Bson: \"id\"\x7d\n\x7d\nfunc (q *entity) Name() common.Field[string] \x7b\n\treturn common.Field[string]\x7bName: \"Name\",Bson: \"name\"\x7d\n\x7d" := by
  refine ⟨?_, by simp, by decide, by decide⟩
  unfold gen.genDaoCode
  simp only []
  rw [foldl_append_concatAll]
  rfl

/-! ## Keys of the upsert and of tags that start with the separator -/

/-- C19, at the record `Person{Name: "Ann", City: "Oslo"}` of a generated Model,
with the unique field name "Name": the filter of `UpsertOne` has the key "Name",
the declared name, and its update document writes the same member under the key
"name", the bson tag. -/
theorem C19_upsert_filter_key_is_declared_name :
    Q.UpsertOne.filter samplePromoted sampleModelValue ["Name"] = .ok [("Name", Bson.val "Ann")]
    ∧ Q.UpsertOne.updateDoc stringIsZero sampleModelValue
        = .ok [("name", Bson.val "Ann"), ("city", Bson.val "Oslo")]
    ∧ (Q.UpsertOne sampleDriver stringIsZero samplePromoted sampleQ sampleModelValue ["Name"]).2
        = [Call.UpdateOne () () [("Name", Bson.val "Ann")]
            [("$set", Bson.D [("name", Bson.val "Ann"), ("city", Bson.val "Oslo")])]
            [{ Upsert := some true }]] :=
  ⟨rfl, rfl, rfl⟩

/-- C20, at the field `Name string` tagged ",omitempty": the declared name has
characters other than the underscore, and both `parseStruct` and
`parseEmbeddedFields` record the empty string as its serialization key. -/
theorem C20_empty_key_for_leading_separator :
    (gen.parseStruct asciiTables sampleGen sampleItem).2.fields
        = [{ Name := "Name", Bson := "", Type_ := "string" }]
    ∧ parseEmbeddedFields asciiTables sampleItem
        = .ok [{ Name := "Name", Bson := "", Type_ := "string" }]
    ∧ toLowerCamelCase asciiTables "Name" = "name" := by
  refine ⟨by decide, ?_, by decide⟩
  rw [parseEmbeddedFields_eq]
  exact congrArg Except.ok (by decide)

end Mongen
